import Mathlib

/-!
Verification development for the OpenGlider airfoil / rib geometry core.

The Python sources embedded here are `Profile/_Classes.py` (the 2D profile
engine: `BasicProfile2D`, `Profile2D`) and `openglider/glider/rib.py`
(`Rib`, `MiniRib`, `rotation_rib`).  Machine floats are embedded as real
numbers; a Python statement that raises an exception is embedded as an
`Option`-valued function returning `none`.  Helpers that the repository
imports but whose files are not part of the source tree
(`_Functions.Point`, the `Vector` module, `openglider.vector.rotation_3d`,
`BezierCurve`) are modelled from the specification and marked as such in
their doc comments.
-/

open Real

noncomputable section

namespace OpenGlider

/-- Option-valued `map` over a list: `none` as soon as `f` fails.  Used to
embed Python list comprehensions in which each element computation may
raise. -/
def mapOpt (f : α → Option β) : List α → Option (List β)
  | [] => some []
  | a :: t =>
    match f a, mapOpt f t with
    | some b, some bs => some (b :: bs)
    | _, _ => none

/-- Modelled from the spec: the missing `Vector` module provides the
Euclidean norm of a 2D vector (`Vector.norm`). -/
def Vector.norm (v : ℝ × ℝ) : ℝ :=
  Real.sqrt (v.1 ^ 2 + v.2 ^ 2)

/-- Modelled from the spec: the missing `_Functions.Point` helper "looks up
or linearly interpolates between the two bracketing stored points for the
requested x".  `interpOn` walks the point list from the front and linearly
interpolates inside the first segment whose x-range brackets `x`; it fails
(`none`, a precondition violation in the spec) when no segment brackets
`x`. -/
def interpOn : List (ℝ × ℝ) → ℝ → Option (ℝ × ℝ)
  | [], _ => none
  | [p], x => if p.1 = x then some p else none
  | p :: q :: rest, x =>
    if min p.1 q.1 ≤ x ∧ x ≤ max p.1 q.1 then
      if p.1 = q.1 then some p
      else some (x, p.2 + (x - p.1) * (q.2 - p.2) / (q.1 - p.1))
    else interpOn (q :: rest) x

/-- Modelled from the spec: `_Functions.Point(data, x, h)` with the default
sentinel `h = -1`: a negative `x` addresses the upper surface (stored
first, scanned from the front), a nonnegative `x` the lower surface
(stored last, scanned from the back).  The source returns a
`(position, point)` pair and every caller projects onto the point with
`[1]` / `[:, 1]`; the model returns the interpolated point directly. -/
def Point (data : List (ℝ × ℝ)) (xval : ℝ) : Option (ℝ × ℝ) :=
  if xval < 0 then interpOn data (-xval) else interpOn data.reverse xval

/-- Nose-detection scan of `BasicProfile2D._SetProfile`:
`while profile[i+1][0] < profile[i][0] and i < len(profile): i += 1`.
The access `profile[i+1]` is evaluated before the bounds guard, so on a
strictly decreasing list the scan reads past the end and raises
(`none`). -/
def noseScanAux (l : List (ℝ × ℝ)) (i : ℕ) : Option ℕ :=
  if h : i + 1 < l.length then
    if (l[i + 1]).1 < (l[i]).1 then noseScanAux l (i + 1) else some i
  else none
termination_by l.length - i

/-- Nose index produced by `_SetProfile`, starting the scan at `i = 0`. -/
def noseScan (l : List (ℝ × ℝ)) : Option ℕ :=
  noseScanAux l 0

/-- Profile data of `BasicProfile2D`: the stored point list together with
the nose index computed at assignment time. -/
structure BasicProfile2D where
  data : List (ℝ × ℝ)
  noseindex : ℕ

/-- Embedding of `BasicProfile2D.__init__` / the `Profile` property setter:
store the points and run the nose scan. -/
def mkBasicProfile2D (l : List (ℝ × ℝ)) : Option BasicProfile2D :=
  (noseScan l).map fun i => ⟨l, i⟩

/-- Embedding of `BasicProfile2D.Points`: map a list of signed x-values
onto the profile. -/
def BasicProfile2D.Points (b : BasicProfile2D) (xs : List ℝ) : Option (List (ℝ × ℝ)) :=
  mapOpt (Point b.data) xs

/-- Scan of `BasicProfile2D.Normalize` locating the point of maximum
Euclidean distance from the first point.  The accumulator starts at
`(0, 0)` exactly as the Python locals `dmax = 0.`, `nose = 0`, and is
updated only on a strict increase of the distance. -/
def noseStep (p1 : ℝ × ℝ) (acc : ℝ × (ℝ × ℝ)) (i : ℝ × ℝ) : ℝ × (ℝ × ℝ) :=
  if Vector.norm (i - p1) > acc.1 then (Vector.norm (i - p1), i) else acc

def noseMax (p1 : ℝ × ℝ) (l : List (ℝ × ℝ)) : ℝ × (ℝ × ℝ) :=
  l.foldl (noseStep p1) (0, (0, 0))

/-- Affine map applied to every point by `Normalize`:
`matrix.dot(i - nose)` with `matrix = [[cos, -sin], [sin, cos]] / dmax`. -/
def normalizeMap (dmax : ℝ) (nose : ℝ × ℝ) (s c : ℝ) (i : ℝ × ℝ) : ℝ × ℝ :=
  ((c * (i.1 - nose.1) + -s * (i.2 - nose.2)) / dmax,
    (s * (i.1 - nose.1) + c * (i.2 - nose.2)) / dmax)

/-- Data transformation of `BasicProfile2D.Normalize`: translate by the
nose, rotate by the matrix `[[cos, -sin], [sin, cos]]` with
`sin = (diff / dmax) . (0, -1)` and `cos = sqrt (1 - sin ^ 2)`, and scale
by `1 / dmax` — all applied as one affine map to every point. -/
def normalizeData : List (ℝ × ℝ) → List (ℝ × ℝ)
  | [] => []
  | p1 :: rest =>
    let dn := noseMax p1 (p1 :: rest)
    let dmax := dn.1
    let nose := dn.2
    let s := -((p1.2 - nose.2) / dmax)
    let c := Real.sqrt (1 - s ^ 2)
    (p1 :: rest).map (normalizeMap dmax nose s c)

/-- Embedding of `BasicProfile2D.Normalize`: replaces the data in place;
the stored nose index is left untouched (the source method does not
rescan). -/
def BasicProfile2D.Normalize (b : BasicProfile2D) : BasicProfile2D :=
  { b with data := normalizeData b.data }

/-- State of a `Profile2D`: display name, current (possibly resampled)
data with its nose index, and the retained root profile `_rootprof`. -/
structure Profile2D where
  Name : String
  data : List (ℝ × ℝ)
  noseindex : ℕ
  rootprof : BasicProfile2D

/-- Embedding of `Profile2D.__init__` on a numeric point list: build the
root profile from the raw points (nose scan #1), normalize it (the root
keeps its stale nose index), then install the normalized data as the
current data through `_SetProfile` (nose scan #2).  The empty list leaves
the object without a `data` attribute in Python; the model returns
`none`. -/
def mkProfile2D (l : List (ℝ × ℝ)) (name : String) : Option Profile2D :=
  if l = [] then none
  else
    match noseScan l with
    | none => none
    | some i0 =>
      let root : BasicProfile2D := BasicProfile2D.Normalize ⟨l, i0⟩
      match noseScan root.data with
      | none => none
      | some i1 => some ⟨name, root.data, i1, root⟩

/-- Pointwise form of the numpy scaling `profile * [1., factor]` used by
`_SetThick`: the x-coordinate is kept, the y-coordinate is scaled. -/
def scaleY (f : ℝ) (p : ℝ × ℝ) : ℝ × ℝ :=
  (p.1, f * p.2)

namespace Profile2D

/-- Embedding of `BasicProfile2D._SetProfile` acting on a `Profile2D`:
replace the data and rescan the nose; the root profile and the name are
untouched. -/
def SetProfile (s : Profile2D) (l : List (ℝ × ℝ)) : Option Profile2D :=
  (noseScan l).map fun i => { s with data := l, noseindex := i }

/-- Embedding of `Profile2D._GetXValues`: upper-surface x-values negated,
lower-surface x-values as stored. -/
def XValues (s : Profile2D) : List ℝ :=
  (s.data.take s.noseindex).map (fun p => -p.1) ++ (s.data.drop s.noseindex).map Prod.fst

/-- Embedding of `Profile2D._SetXValues`: resample the retained root
profile at the requested signed x-values and install the result as the
current data. -/
def SetXValues (s : Profile2D) (xs : List ℝ) : Option Profile2D :=
  match s.rootprof.Points xs with
  | none => none
  | some pts => s.SetProfile pts

/-- Embedding of `Profile2D._GetLen` (the `Numpoints` getter). -/
def numpoints (s : Profile2D) : ℕ :=
  s.data.length

/-- Python 2 `cmp(x, y)` as used in `_SetLen`: `-1`, `0` or `1`. -/
def pycmp (a b : ℝ) : ℝ :=
  if a < b then -1 else if a = b then 0 else 1

/-- Cosine-spaced signed x-distribution generated by `Profile2D._SetLen`:
`i = num - num % 2`, values `cmp(t, 0.5) * (1 - sin (pi * t))` at
`t = j / i` for `j = 0, ..., i` (note: `range(i + 1)`, hence `i + 1`
values). -/
def cosineDist (num : ℕ) : List ℝ :=
  let i := num - num % 2
  (List.range (i + 1)).map fun j : ℕ => pycmp ((j : ℝ) / (i : ℝ)) (1 / 2) * (1 - Real.sin (π * ((j : ℝ) / (i : ℝ))))

/-- Embedding of `Profile2D._SetLen` (the `Numpoints` setter): delegate the
cosine distribution to the `XValues` setter. -/
def SetLen (s : Profile2D) (num : ℕ) : Option Profile2D :=
  s.SetXValues (cosineDist num)

/-- Python `max()` over a list (raises on an empty list, hence `none`). -/
def pymax : List ℝ → Option ℝ
  | [] => none
  | a :: t => some (t.foldl max a)

/-- Embedding of `Profile2D._GetThick` with no argument: the de-duplicated
absolute x-values (`set(map(abs, self.XValues))`) paired with
`Point(-x).y - Point(x).y`. -/
def thicknessList (s : Profile2D) : Option (List (ℝ × ℝ)) :=
  mapOpt
    (fun i => match Point s.data (-i), Point s.data i with
      | some u, some l => some (i, u.2 - l.2)
      | _, _ => none)
    ((s.XValues.map fun x => |x|).dedup)

/-- Maximum thickness `max(self.Thickness[:, 1])` read by `_SetThick`. -/
def maxThickness (s : Profile2D) : Option ℝ :=
  match s.thicknessList with
  | none => none
  | some l => pymax (l.map Prod.snd)

/-- Embedding of `Profile2D._SetThick`: scale every y-coordinate by
`newthick / max(Thickness)` and rebuild the whole object through
`__init__` with the percentage-suffixed name.  The textual rendering
`str(newthick * 100)` of a float is abstracted by `numStr`. -/
def SetThick (numStr : ℝ → String) (s : Profile2D) (newthick : ℝ) : Option Profile2D :=
  match s.maxThickness with
  | none => none
  | some mt =>
    let factor := newthick / mt
    mkProfile2D (s.data.map (scaleY factor)) (s.Name ++ "_" ++ numStr (newthick * 100) ++ "%")

/-- Embedding of `BasicProfile2D.copy` on a `Profile2D`:
`self.__class__(self.data.copy())` re-enters `Profile2D.__init__` with the
current data and the default name `"Profile"` (the copy is re-normalized
and gets a fresh root profile built from the current data). -/
def copy (s : Profile2D) : Option Profile2D :=
  mkProfile2D s.data "Profile"

/-- Embedding of `Profile2D.__add__`: the operand with fewer points is
copied, resampled onto the other operand's x-values when they differ, and
the other operand's data times the `[0, 1]` mask is added elementwise.
numpy raises on a shape mismatch of the final elementwise sum, hence
`none` there. -/
def add (s o : Profile2D) : Option Profile2D :=
  let fsrc := if o.numpoints < s.numpoints then o else s
  let snd := if o.numpoints < s.numpoints then s else o
  match fsrc.copy with
  | none => none
  | some c =>
    let resampled : Option Profile2D :=
      if c.XValues = snd.XValues then some c else c.SetXValues snd.XValues
    match resampled with
    | none => none
    | some first =>
      if first.data.length = snd.data.length then
        first.SetProfile
          (List.zipWith (fun p q => (p.1 + 0 * q.1, p.2 + 1 * q.2)) first.data snd.data)
      else none

end Profile2D

/-- Points of 3D space, embedding the numpy length-3 arrays of `rib.py`. -/
structure V3 where
  x : ℝ
  y : ℝ
  z : ℝ

/-- Real 3x3 matrices by entries, embedding the numpy rotation matrices of
`rib.py`. -/
structure M3 where
  a11 : ℝ
  a12 : ℝ
  a13 : ℝ
  a21 : ℝ
  a22 : ℝ
  a23 : ℝ
  a31 : ℝ
  a32 : ℝ
  a33 : ℝ

/-- Matrix product `A.dot(B)`. -/
def M3.mul (A B : M3) : M3 :=
  ⟨A.a11 * B.a11 + A.a12 * B.a21 + A.a13 * B.a31,
    A.a11 * B.a12 + A.a12 * B.a22 + A.a13 * B.a32,
    A.a11 * B.a13 + A.a12 * B.a23 + A.a13 * B.a33,
    A.a21 * B.a11 + A.a22 * B.a21 + A.a23 * B.a31,
    A.a21 * B.a12 + A.a22 * B.a22 + A.a23 * B.a32,
    A.a21 * B.a13 + A.a22 * B.a23 + A.a23 * B.a33,
    A.a31 * B.a11 + A.a32 * B.a21 + A.a33 * B.a31,
    A.a31 * B.a12 + A.a32 * B.a22 + A.a33 * B.a32,
    A.a31 * B.a13 + A.a32 * B.a23 + A.a33 * B.a33⟩

/-- Matrix-vector product `A.dot(v)`. -/
def M3.vec (A : M3) (v : V3) : V3 :=
  ⟨A.a11 * v.x + A.a12 * v.y + A.a13 * v.z,
    A.a21 * v.x + A.a22 * v.y + A.a23 * v.z,
    A.a31 * v.x + A.a32 * v.y + A.a33 * v.z⟩

/-- Componentwise vector sum. -/
def V3.add (u v : V3) : V3 :=
  ⟨u.x + v.x, u.y + v.y, u.z + v.z⟩

/-- Scalar multiple of a vector. -/
def V3.smul (v : V3) (c : ℝ) : V3 :=
  ⟨v.x * c, v.y * c, v.z * c⟩

/-- Modelled from the spec: the missing `openglider.vector.rotation_3d`
builds "the" 3D rotation matrix for a given angle about a given axis —
the standard axis-angle (Rodrigues) matrix; the axis is expected to be a
unit vector (every axis passed in `rib.py` is one). -/
def rotation_3d (angle : ℝ) (a : V3) : M3 :=
  let c := Real.cos angle
  let s := Real.sin angle
  ⟨c + a.x ^ 2 * (1 - c), a.x * a.y * (1 - c) - a.z * s, a.x * a.z * (1 - c) + a.y * s,
    a.y * a.x * (1 - c) + a.z * s, c + a.y ^ 2 * (1 - c), a.y * a.z * (1 - c) - a.x * s,
    a.z * a.x * (1 - c) - a.y * s, a.z * a.y * (1 - c) + a.x * s, c + a.z ^ 2 * (1 - c)⟩

/-- Embedding of `rotation_rib(aoa, arc, zrot)`: rotate by `-arc + pi/2`
about `[-1, 0, 0]`, then by `aoa` about the transformed `[0, 0, 1]`, then
by `zrot` about the doubly transformed `[0, 1, 0]`, composing by left
multiplication at each step. -/
def rotation_rib (aoa arc zrot : ℝ) : M3 :=
  let rot1 := rotation_3d (-arc + π / 2) ⟨-1, 0, 0⟩
  let axis1 := rot1.vec ⟨0, 0, 1⟩
  let rot2 := (rotation_3d aoa axis1).mul rot1
  let axis2 := rot2.vec ⟨0, 1, 0⟩
  (rotation_3d zrot axis2).mul rot2

/-- Composition of three rotations exactly as the specification words it
for `Rib.rotation_matrix`: (a) by `pi/2 - arcang` about the spanwise axis,
(b) by the absolute angle of attack about the transformed vertical axis,
(c) by the third argument about the doubly transformed chordwise axis.
Claim C2 passes the rib's raw `zrot` parameter as the third argument. -/
def rotation_rib_spec (aoa arc zrot : ℝ) : M3 :=
  let rot1 := rotation_3d (π / 2 - arc) ⟨-1, 0, 0⟩
  let axis1 := rot1.vec ⟨0, 0, 1⟩
  let rot2 := (rotation_3d aoa axis1).mul rot1
  let axis2 := rot2.vec ⟨0, 1, 0⟩
  (rotation_3d zrot axis2).mul rot2

/-- State of a `Rib`.  The angle of attack is the stored pair
`self._aoa = (angle, flag)` where the flag says the stored angle is the
glide-relative one.  `profile2dData` embeds `self.profile_2d.data`
(`none` when no point data is present). -/
structure Rib where
  name : String
  profile2dData : Option (List (ℝ × ℝ))
  pos : V3
  chord : ℝ
  arcang : ℝ
  zrot : ℝ
  glide : ℝ
  aoa : ℝ × Bool

namespace Rib

/-- Embedding of `Rib.__aoa_diff`: `arctan (cos arc_angle / glide)`. -/
def aoaDiff (arc_angle glide : ℝ) : ℝ :=
  Real.arctan (Real.cos arc_angle / glide)

/-- Getter `Rib.aoa_absolute`: recomputed from the stored pair when the
relative representation is the authoritative one. -/
def aoa_absolute (r : Rib) : ℝ :=
  if r.aoa.2 then r.aoa.1 - aoaDiff r.arcang r.glide else r.aoa.1

/-- Getter `Rib.aoa_relative`: recomputed from the stored pair when the
absolute representation is the authoritative one. -/
def aoa_relative (r : Rib) : ℝ :=
  if r.aoa.2 then r.aoa.1 else r.aoa.1 + aoaDiff r.arcang r.glide

/-- Setter `Rib.aoa_absolute = aoa`: store `(aoa, False)`. -/
def setAoaAbsolute (r : Rib) (v : ℝ) : Rib :=
  { r with aoa := (v, false) }

/-- Setter `Rib.aoa_relative = aoa`: store `(aoa, True)`. -/
def setAoaRelative (r : Rib) (v : ℝ) : Rib :=
  { r with aoa := (v, true) }

/-- Embedding of the `Rib.rotation_matrix` property:
`zrot = arctan(arcang) / glide * self.zrot` is passed to `rotation_rib`
together with the absolute angle of attack. -/
def rotation_matrix (r : Rib) : M3 :=
  rotation_rib r.aoa_absolute r.arcang (Real.arctan r.arcang / r.glide * r.zrot)

/-- Embedding of `Rib.align` on a 3D point:
`pos + rotation_matrix.dot(point) * chord`. -/
def align (r : Rib) (p : V3) : V3 :=
  V3.add r.pos ((r.rotation_matrix.vec p).smul r.chord)

/-- Embedding of the `Rib.profile_3d` property: with no 2D point data the
read raises a `ValueError` naming the rib; otherwise every 2D profile
point is lifted to `z = 0` and mapped through `align`. -/
def profile_3d (r : Rib) : Except String (List V3) :=
  match r.profile2dData with
  | none => Except.error ("no 2d-profile present fortharib at rib " ++ r.name)
  | some l => Except.ok (l.map fun p => r.align ⟨p.1, p.2, 0⟩)

end Rib

/-- State of a `MiniRib`.  The blending curve `self.__function__` is kept
abstract (`fn`): the source builds it from `BezierCurve(points)`
`.interpolation()`, whose implementation is not part of the source tree
(modelled from the spec as an arbitrary stored real function). -/
structure MiniRib where
  y_value : ℝ
  front_cut : ℝ
  back_cut : ℝ
  fn : ℝ → ℝ

/-- Embedding of `MiniRib.function`: clamp the stored curve into `[0, 1]`
inside the cut window, return `1` outside it. -/
def MiniRib.function (m : MiniRib) (x : ℝ) : ℝ :=
  if m.front_cut ≤ |x| ∧ |x| ≤ m.back_cut then min 1 (max 0 (m.fn |x|)) else 1

/-! General lemmas about the embedding primitives. -/

theorem mapOpt_length {f : α → Option β} :
    ∀ {xs : List α} {ys : List β}, mapOpt f xs = some ys → ys.length = xs.length := by
  intro xs
  induction xs with
  | nil => intro ys h; simp only [mapOpt] at h; cases h; rfl
  | cons a t ih =>
    intro ys h
    simp only [mapOpt] at h
    cases hfa : f a with
    | none => rw [hfa] at h; exact absurd h (by simp)
    | some b =>
      rw [hfa] at h
      cases hft : mapOpt f t with
      | none => rw [hft] at h; exact absurd h (by simp)
      | some bs =>
        rw [hft] at h
        cases h
        simp [ih hft]

theorem mapOpt_of_forall {f : α → Option β} {g : α → β} :
    ∀ {xs : List α}, (∀ x ∈ xs, f x = some (g x)) → mapOpt f xs = some (xs.map g) := by
  intro xs
  induction xs with
  | nil => intro _; rfl
  | cons a t ih =>
    intro h
    simp only [mapOpt, h a (List.mem_cons_self a t), ih fun x hx => h x (List.mem_cons_of_mem a hx),
      List.map_cons]

theorem mapOpt_getElem {f : α → Option β} :
    ∀ {xs : List α} {ys : List β}, mapOpt f xs = some ys →
      ∀ k (hk : k < xs.length) (hk2 : k < ys.length), f (xs.get ⟨k, hk⟩) = some (ys.get ⟨k, hk2⟩) := by
  intro xs
  induction xs with
  | nil => intro ys _ k hk; exact absurd hk (by simp)
  | cons a t ih =>
    intro ys h k hk hk2
    simp only [mapOpt] at h
    cases hfa : f a with
    | none => rw [hfa] at h; exact absurd h (by simp)
    | some b =>
      rw [hfa] at h
      cases hft : mapOpt f t with
      | none => rw [hft] at h; exact absurd h (by simp)
      | some bs =>
        rw [hft] at h
        cases h
        match k with
        | 0 => exact hfa
        | k + 1 => exact ih hft k (by simpa using hk) (by simpa using hk2)

theorem noseScanAux_stop {l : List (ℝ × ℝ)} {i : ℕ} (h : i + 1 < l.length)
    (hge : ¬ (l[i + 1]).1 < (l[i]).1) : noseScanAux l i = some i := by
  rw [noseScanAux, dif_pos h, if_neg hge]

theorem noseScanAux_step {l : List (ℝ × ℝ)} {i : ℕ} (h : i + 1 < l.length)
    (hlt : (l[i + 1]).1 < (l[i]).1) : noseScanAux l i = noseScanAux l (i + 1) := by
  rw [noseScanAux, dif_pos h, if_pos hlt]

theorem noseScanAux_oob {l : List (ℝ × ℝ)} {i : ℕ} (h : ¬ i + 1 < l.length) :
    noseScanAux l i = none := by
  rw [noseScanAux, dif_neg h]

theorem noseScanAux_reaches {l : List (ℝ × ℝ)} :
    ∀ d i0 i, i = i0 + d → (h : i + 1 < l.length) → ¬ (l[i + 1]).1 < (l[i]).1 →
      (∀ j, i0 ≤ j → j < i → (hj : j + 1 < l.length) → (l[j + 1]).1 < (l[j]).1) →
      noseScanAux l i0 = some i := by
  intro d
  induction d with
  | zero => intro i0 i hi h hstop _; subst hi; exact noseScanAux_stop h hstop
  | succ d ih =>
    intro i0 i hi h hstop hdec
    have hi0 : i0 + 1 ≤ i := by omega
    have h1 : i0 + 1 < l.length := by omega
    rw [noseScanAux_step h1 (hdec i0 le_rfl (by omega) h1)]
    exact ih (i0 + 1) i (by omega) h hstop fun j hj1 hj2 hj3 => hdec j (by omega) hj2 hj3

theorem noseScanAux_runs_out {l : List (ℝ × ℝ)} :
    ∀ d i0, l.length ≤ i0 + 1 + d →
      (∀ j, i0 ≤ j → (hj : j + 1 < l.length) → (l[j + 1]).1 < (l[j]).1) →
      noseScanAux l i0 = none := by
  intro d
  induction d with
  | zero => intro i0 hlen _; exact noseScanAux_oob (by omega)
  | succ d ih =>
    intro i0 hlen hdec
    by_cases h1 : i0 + 1 < l.length
    · rw [noseScanAux_step h1 (hdec i0 le_rfl h1)]
      exact ih (i0 + 1) (by omega) fun j hj1 hj2 => hdec j (by omega) hj2
    · exact noseScanAux_oob h1

/-! Claim C10. -/

/-- C10: for a point list of length at least 2, the nose-detection scan of
`_SetProfile` stays in bounds and returns the smallest index `i` with
`x[i+1] >= x[i]` whenever such an index with `i + 1 < length` exists, and
on a strictly decreasing list it attempts the out-of-range read
`profile[length]` (the bounds guard is evaluated after the access), so a
non-decreasing adjacent pair is a necessary precondition for safe
construction. -/
theorem noseScan_first_nondecrease (l : List (ℝ × ℝ)) (_h2 : 2 ≤ l.length) :
    (∀ i, (hi : i + 1 < l.length) → (l[i]).1 ≤ (l[i + 1]).1 →
      (∀ j, j < i → (hj : j + 1 < l.length) → (l[j + 1]).1 < (l[j]).1) →
      noseScan l = some i) ∧
    ((∀ j, (hj : j + 1 < l.length) → (l[j + 1]).1 < (l[j]).1) → noseScan l = none) := by
  constructor
  · intro i hi hge hdec
    unfold noseScan
    exact noseScanAux_reaches i 0 i (by omega) hi (not_lt.mpr hge)
      fun j _ hj2 hj3 => hdec j hj2 hj3
  · intro hdec
    unfold noseScan
    exact noseScanAux_runs_out l.length 0 (by omega) fun j _ hj => hdec j hj

/-- Witness for C10 at concrete inputs: the scan returns index 1 on the
minimal normalized profile and fails on a strictly decreasing 2-point
list. -/
theorem noseScan_first_nondecrease_witness :
    noseScan [((1 : ℝ), (0 : ℝ)), (0, 0), (1, 0)] = some 1 ∧
    noseScan [((1 : ℝ), (0 : ℝ)), (0, 0)] = none := by
  constructor
  · refine (noseScan_first_nondecrease _ (by norm_num)).1 1 (by norm_num) ?_ ?_
    · norm_num
    · intro j hj hj2
      interval_cases j
      norm_num
  · refine (noseScan_first_nondecrease _ (by norm_num)).2 ?_
    intro j hj
    have hj0 : j = 0 := by simp only [List.length_cons, List.length_nil] at hj; omega
    subst hj0
    norm_num

/-! Claim C1. -/

/-- C1: the `XValues` setter resamples from the retained root profile and
never from the current data, so assigning `XValues = D1` and then
`XValues = D2` yields exactly the state (in particular the data array)
that assigning `XValues = D2` directly yields. -/
theorem setXValues_from_root (s : Profile2D) (xs1 xs2 : List ℝ) (s1 : Profile2D)
    (h : s.SetXValues xs1 = some s1) :
    s1.SetXValues xs2 = s.SetXValues xs2 := by
  unfold Profile2D.SetXValues Profile2D.SetProfile at h ⊢
  cases hp : s.rootprof.Points xs1 with
  | none => rw [hp] at h; cases h
  | some pts1 =>
    rw [hp] at h
    dsimp only at h
    cases hn : noseScan pts1 with
    | none => rw [hn] at h; cases h
    | some i1 =>
      rw [hn] at h
      simp only [Option.map_some', Option.some.injEq] at h
      subst h
      rfl

/-- Concrete profile data used by several witnesses: the minimal
normalized airfoil `[(1,0), (0,0), (1,0)]`. -/
def flatData : List (ℝ × ℝ) :=
  [(1, 0), (0, 0), (1, 0)]

/-- Concrete `Profile2D` state over `flatData` (its own root profile). -/
def flatProfile : Profile2D :=
  ⟨"Profile", flatData, 1, ⟨flatData, 1⟩⟩

/-- Witness for C1: resampling the flat profile at `[-1, -1/2, 0, 1]` and
then at `[-1, 0, 1]` gives exactly the direct resampling at
`[-1, 0, 1]`. -/
theorem setXValues_from_root_witness :
    flatProfile.SetXValues [-1, -1/2, 0, 1] =
      some ⟨"Profile", [(1, 0), (1/2, 0), (0, 0), (1, 0)], 2, ⟨flatData, 1⟩⟩ ∧
    (Profile2D.SetXValues ⟨"Profile", [(1, 0), (1/2, 0), (0, 0), (1, 0)], 2, ⟨flatData, 1⟩⟩ [-1, 0, 1]) =
      flatProfile.SetXValues [-1, 0, 1] := by
  have h : flatProfile.SetXValues [-1, -1/2, 0, 1] =
      some ⟨"Profile", [(1, 0), (1/2, 0), (0, 0), (1, 0)], 2, ⟨flatData, 1⟩⟩ := by
    unfold Profile2D.SetXValues
    have hp : flatProfile.rootprof.Points [-1, -1/2, 0, 1] =
        some [(1, 0), (1/2, 0), (0, 0), (1, 0)] := by
      norm_num [BasicProfile2D.Points, mapOpt, Point, interpOn, flatProfile, flatData]
    rw [hp]
    dsimp only
    unfold Profile2D.SetProfile
    have hn : noseScan [((1:ℝ), (0:ℝ)), (1/2, 0), (0, 0), (1, 0)] = some 2 := by
      rw [noseScan, noseScanAux]
      norm_num
      rw [noseScanAux]
      norm_num
      rw [noseScanAux]
      norm_num
    rw [hn]
    rfl
  exact ⟨h, setXValues_from_root flatProfile [-1, -1/2, 0, 1] [-1, 0, 1] _ h⟩

/-! Claim C4. -/

/-- C4: exactly one angle-of-attack representation is stored; reading the
other one recomputes it through
`aoa_absolute = aoa_relative - arctan (cos arcang / glide)`, and all four
set-then-read round trips return the original angle exactly. -/
theorem aoa_duality (r : Rib) (a : ℝ) (_hg : 0 < r.glide) :
    (r.setAoaRelative a).aoa_relative = a ∧
    (r.setAoaAbsolute a).aoa_absolute = a ∧
    r.aoa_absolute = r.aoa_relative - Rib.aoaDiff r.arcang r.glide ∧
    (r.setAoaAbsolute ((r.setAoaRelative a).aoa_absolute)).aoa_relative = a ∧
    (r.setAoaRelative ((r.setAoaAbsolute a).aoa_relative)).aoa_absolute = a := by
  unfold Rib.aoa_absolute Rib.aoa_relative Rib.setAoaAbsolute Rib.setAoaRelative
  cases hb : r.aoa.2 <;> simp [hb]

/-- Concrete rib with no 2D profile data, used by several witnesses. -/
def rib0 : Rib :=
  ⟨"unnamed rib", none, ⟨0, 0, 0⟩, 1, 0, 0, 1, (0, false)⟩

/-- Witness for C4 at the concrete rib `rib0` and angle `a = 1`. -/
theorem aoa_duality_witness :
    (0 : ℝ) < rib0.glide ∧
    ((rib0.setAoaRelative 1).aoa_relative = 1 ∧
      (rib0.setAoaAbsolute 1).aoa_absolute = 1 ∧
      rib0.aoa_absolute = rib0.aoa_relative - Rib.aoaDiff rib0.arcang rib0.glide ∧
      (rib0.setAoaAbsolute ((rib0.setAoaRelative 1).aoa_absolute)).aoa_relative = 1 ∧
      (rib0.setAoaRelative ((rib0.setAoaAbsolute 1).aoa_relative)).aoa_absolute = 1) :=
  ⟨by norm_num [rib0], aoa_duality rib0 1 (by norm_num [rib0])⟩

/-! Claim C8. -/

/-- C8: inside the `[front_cut, back_cut]` window (taken on `|x|`) the
mini-rib blending function returns the stored curve's output clamped into
`[0, 1]`, and outside the window it returns exactly 1. -/
theorem minirib_function_clamp (m : MiniRib) (x : ℝ)
    (_hc : 0 ≤ m.front_cut ∧ m.front_cut ≤ m.back_cut ∧ m.back_cut ≤ 1) :
    ((m.front_cut ≤ |x| ∧ |x| ≤ m.back_cut) →
      m.function x = min 1 (max 0 (m.fn |x|)) ∧ 0 ≤ m.function x ∧ m.function x ≤ 1) ∧
    (¬ (m.front_cut ≤ |x| ∧ |x| ≤ m.back_cut) → m.function x = 1) := by
  unfold MiniRib.function
  constructor
  · intro h
    rw [if_pos h]
    refine ⟨rfl, le_min (by norm_num) (le_max_left 0 _), min_le_left 1 _⟩
  · intro h
    rw [if_neg h]

/-- Concrete mini-rib whose stored curve overshoots 1, used by the C8
witness. -/
def minirib0 : MiniRib :=
  ⟨1/2, 1/4, 3/4, fun _ => 2⟩

/-- Witness for C8: at `x = 1/2` (inside the window) the overshooting
curve is clamped to 1; at `x = 9/10` (outside) the function is 1. -/
theorem minirib_function_clamp_witness :
    minirib0.function (1/2) = min 1 (max 0 (minirib0.fn |(1/2 : ℝ)|)) ∧
    0 ≤ minirib0.function (1/2) ∧ minirib0.function (1/2) ≤ 1 ∧
    minirib0.function (9/10) = 1 := by
  have hin := (minirib_function_clamp minirib0 (1/2) (by norm_num [minirib0])).1
    (by norm_num [minirib0, abs_of_nonneg])
  have hout := (minirib_function_clamp minirib0 (9/10) (by norm_num [minirib0])).2
    (by norm_num [minirib0, abs_of_nonneg])
  exact ⟨hin.1, hin.2.1, hin.2.2, hout⟩

/-! Claim C9. -/

/-- C9: reading `profile_3d` with no 2D point data fails with the
missing-profile error naming the rib; otherwise it returns exactly the 2D
profile points lifted to `z = 0` and mapped through `align`
(`pos + rotation_matrix . point * chord`) — the result is recomputed from
`profile_2d.data` alone, with no independent 3D point storage. -/
theorem profile3d_requires_profile (r : Rib) :
    (r.profile2dData = none →
      r.profile_3d = Except.error ("no 2d-profile present fortharib at rib " ++ r.name)) ∧
    (∀ l, r.profile2dData = some l →
      r.profile_3d = Except.ok (l.map fun p => r.align ⟨p.1, p.2, 0⟩)) := by
  constructor
  · intro h
    unfold Rib.profile_3d
    rw [h]
  · intro l h
    unfold Rib.profile_3d
    rw [h]

/-- Concrete rib carrying 2D profile data, for the C9 witness. -/
def rib1 : Rib :=
  ⟨"r1", some [(1, 0), (0, 0), (1, 0)], ⟨0, 0, 0⟩, 1, 0, 0, 1, (0, false)⟩

/-- Witness for C9: the missing-profile error names `rib0`, and on `rib1`
the 3D profile is the pointwise `align` image of its 2D data. -/
theorem profile3d_requires_profile_witness :
    rib0.profile_3d = Except.error ("no 2d-profile present fortharib at rib " ++ "unnamed rib") ∧
    rib1.profile_3d =
      Except.ok [rib1.align ⟨1, 0, 0⟩, rib1.align ⟨0, 0, 0⟩, rib1.align ⟨1, 0, 0⟩] := by
  constructor
  · exact (profile3d_requires_profile rib0).1 rfl
  · rw [(profile3d_requires_profile rib1).2 [(1, 0), (0, 0), (1, 0)] rfl]
    simp [List.map]

/-! Claim C2. -/

/-- Amended C2: `rotation_matrix` is the three-step composition the
specification describes — (a) rotate by `pi/2 - arcang` about the
spanwise axis, (b) rotate by the absolute angle of attack about the
transformed vertical axis, (c) rotate about the doubly transformed
chordwise axis — but the third rotation angle is
`arctan(arcang) / glide * zrot`, not the raw `zrot` parameter. -/
theorem rotation_matrix_decomposition (r : Rib) :
    r.rotation_matrix =
      rotation_rib_spec r.aoa_absolute r.arcang (Real.arctan r.arcang / r.glide * r.zrot) := by
  unfold Rib.rotation_matrix rotation_rib rotation_rib_spec
  rw [neg_add_eq_sub]

/-- Concrete rib refuting C2 as stated: `arcang = 0`, `glide = 1`,
`zrot = pi`, zero angle of attack. -/
def rib2 : Rib :=
  ⟨"r2", none, ⟨0, 0, 0⟩, 1, 0, π, 1, (0, false)⟩

/-- Counterexample to C2 as stated: with `arcang = 0` the code's third
rotation angle `arctan(0) / 1 * pi` is `0`, so the rotation matrix is NOT
the composition whose step (c) rotates by the rib's `zrot` parameter
(`pi`): the two matrices differ in their top-left entry (1 versus -1). -/
theorem rotation_matrix_not_raw_zrot :
    rib2.rotation_matrix ≠ rotation_rib_spec rib2.aoa_absolute rib2.arcang rib2.zrot := by
  intro h
  have h11 := congrArg M3.a11 h
  norm_num [rib2, Rib.rotation_matrix, Rib.aoa_absolute, Rib.aoaDiff, rotation_rib,
    rotation_rib_spec, rotation_3d, M3.mul, M3.vec, Real.arctan_zero, Real.cos_pi_div_two,
    Real.sin_pi_div_two, Real.cos_pi, Real.sin_pi] at h11

/-! Claim C3. -/

theorem noseStep_foldl_spec (p1 : ℝ × ℝ) :
    ∀ (l : List (ℝ × ℝ)) (acc : ℝ × (ℝ × ℝ)),
      acc.1 ≤ (l.foldl (noseStep p1) acc).1 ∧
      (l.foldl (noseStep p1) acc = acc ∨
        ((l.foldl (noseStep p1) acc).2 ∈ l ∧
          Vector.norm ((l.foldl (noseStep p1) acc).2 - p1) = (l.foldl (noseStep p1) acc).1)) ∧
      ∀ q ∈ l, Vector.norm (q - p1) ≤ (l.foldl (noseStep p1) acc).1 := by
  intro l
  induction l with
  | nil => intro acc; exact ⟨le_rfl, Or.inl rfl, by simp⟩
  | cons a t ih =>
    intro acc
    simp only [List.foldl_cons]
    obtain ⟨ih1, ih2, ih3⟩ := ih (noseStep p1 acc a)
    have hstep1 : acc.1 ≤ (noseStep p1 acc a).1 := by
      unfold noseStep; split
      · exact le_of_lt (by assumption)
      · exact le_rfl
    have hstep2 : Vector.norm (a - p1) ≤ (noseStep p1 acc a).1 := by
      unfold noseStep; split
      · exact le_rfl
      · exact not_lt.mp (by assumption)
    have hstep3 : noseStep p1 acc a = acc ∨
        ((noseStep p1 acc a).2 = a ∧
          Vector.norm ((noseStep p1 acc a).2 - p1) = (noseStep p1 acc a).1) := by
      unfold noseStep; split
      · exact Or.inr ⟨rfl, rfl⟩
      · exact Or.inl rfl
    refine ⟨le_trans hstep1 ih1, ?_, ?_⟩
    · rcases ih2 with h | h
      · rw [h]
        rcases hstep3 with h3 | h3
        · exact Or.inl h3
        · refine Or.inr ⟨?_, h3.2⟩
          rw [h3.1]
          exact List.mem_cons_self a t
      · exact Or.inr ⟨List.mem_cons_of_mem a h.1, h.2⟩
    · intro q hq
      rcases List.mem_cons.mp hq with rfl | hq
      · exact le_trans hstep2 ih1
      · exact ih3 q hq

theorem noseMax_spec (p1 : ℝ × ℝ) (l : List (ℝ × ℝ)) (h : 0 < (noseMax p1 l).1) :
    (noseMax p1 l).2 ∈ l ∧ Vector.norm ((noseMax p1 l).2 - p1) = (noseMax p1 l).1 ∧
      ∀ q ∈ l, Vector.norm (q - p1) ≤ (noseMax p1 l).1 := by
  obtain ⟨h1, h2, h3⟩ := noseStep_foldl_spec p1 l (0, (0, 0))
  rcases h2 with he | he
  · rw [noseMax, he] at h
    exact absurd h (lt_irrefl 0)
  · exact ⟨he.1, he.2, h3⟩

/-- Amended C3: with `dmax > 0`, `Normalize` maps every point `p` to
`M.(p - nose)` where `nose` is a maximizer of the distance from the first
point, `M = [[cos, -sin], [sin, cos]] / dmax`,
`sin = (first - nose) / dmax . (0, -1)` and `cos = sqrt (1 - sin ^ 2)`;
the nose lands on the origin, and the first point lands on `(1, 0)`
PROVIDED its x-coordinate is at least the nose's (without that proviso it
only lands at distance 1 from the origin, not on the x-axis). -/
theorem normalize_spec (p1 : ℝ × ℝ) (rest : List (ℝ × ℝ)) (dmax : ℝ) (nose : ℝ × ℝ)
    (hnm : noseMax p1 (p1 :: rest) = (dmax, nose))
    (hd : 0 < dmax) (hx : nose.1 ≤ p1.1) :
    (nose ∈ p1 :: rest ∧ Vector.norm (nose - p1) = dmax ∧
      ∀ q ∈ p1 :: rest, Vector.norm (q - p1) ≤ dmax) ∧
    normalizeData (p1 :: rest) =
      (p1 :: rest).map
        (normalizeMap dmax nose (-((p1.2 - nose.2) / dmax))
          (Real.sqrt (1 - (-((p1.2 - nose.2) / dmax)) ^ 2))) ∧
    normalizeMap dmax nose (-((p1.2 - nose.2) / dmax))
      (Real.sqrt (1 - (-((p1.2 - nose.2) / dmax)) ^ 2)) nose = (0, 0) ∧
    normalizeMap dmax nose (-((p1.2 - nose.2) / dmax))
      (Real.sqrt (1 - (-((p1.2 - nose.2) / dmax)) ^ 2)) p1 = (1, 0) := by
  have hspec := noseMax_spec p1 (p1 :: rest) (by rw [hnm]; exact hd)
  rw [hnm] at hspec
  obtain ⟨hmem, hnorm, hbound⟩ := hspec
  have hdne : dmax ≠ 0 := ne_of_gt hd
  have key : (nose.1 - p1.1) ^ 2 + (nose.2 - p1.2) ^ 2 = dmax ^ 2 := by
    have h2 := congrArg (fun t => t ^ 2) hnorm
    simp only at h2
    rw [Vector.norm, Prod.fst_sub, Prod.snd_sub,
      Real.sq_sqrt (by positivity)] at h2
    exact h2
  have h1 : 1 - (-((p1.2 - nose.2) / dmax)) ^ 2 = ((p1.1 - nose.1) / dmax) ^ 2 := by
    field_simp
    linear_combination -key
  have hc : Real.sqrt (1 - (-((p1.2 - nose.2) / dmax)) ^ 2) = (p1.1 - nose.1) / dmax := by
    rw [h1]
    exact Real.sqrt_sq (div_nonneg (by linarith) hd.le)
  refine ⟨⟨hmem, hnorm, hbound⟩, ?_, ?_, ?_⟩
  · simp only [normalizeData, hnm]
  · norm_num [normalizeMap]
  · rw [hc]
    unfold normalizeMap
    refine Prod.ext ?_ ?_
    · show ((p1.1 - nose.1) / dmax * (p1.1 - nose.1) +
        -(-((p1.2 - nose.2) / dmax)) * (p1.2 - nose.2)) / dmax = 1
      field_simp
      linear_combination key
    · show (-((p1.2 - nose.2) / dmax) * (p1.1 - nose.1) +
        (p1.1 - nose.1) / dmax * (p1.2 - nose.2)) / dmax = 0
      field_simp
      ring

/-- Witness for the amended C3 at the flat profile: the nose `(0, 0)` is
at distance 1 from the first point `(1, 0)`, and the first point is mapped
exactly onto `(1, 0)`. -/
theorem normalize_spec_witness :
    Vector.norm (((0 : ℝ), (0 : ℝ)) - (1, 0)) = 1 ∧
    normalizeMap 1 ((0 : ℝ), (0 : ℝ)) (-((0 - 0) / 1))
      (Real.sqrt (1 - (-(((0 : ℝ) - 0) / 1)) ^ 2)) (1, 0) = (1, 0) := by
  have hnm : noseMax ((1 : ℝ), (0 : ℝ)) [((1 : ℝ), (0 : ℝ)), (0, 0), (1, 0)] = (1, (0, 0)) := by
    norm_num [noseMax, noseStep, Vector.norm, List.foldl, Prod.mk_sub_mk, Real.sqrt_zero,
      Real.sqrt_one]
  have h := normalize_spec (1, 0) [(0, 0), (1, 0)] 1 (0, 0) hnm one_pos (by norm_num)
  exact ⟨h.1.2.1, h.2.2.2⟩

/-- Counterexample to C3 as stated: on `[(0, 0), (3/5, 4/5)]` (distinct
points, so `dmax = 1 > 0`) the first point is mapped to
`(7/25, -24/25)`, which is NOT on the unit x-axis — the claimed
consequence fails whenever the first point's x-coordinate is below the
nose's. -/
theorem normalize_first_point_off_axis :
    0 < (noseMax ((0 : ℝ), (0 : ℝ)) [((0 : ℝ), (0 : ℝ)), (3/5, 4/5)]).1 ∧
    normalizeData [((0 : ℝ), (0 : ℝ)), (3/5, 4/5)] = [(7/25, -24/25), (0, 0)] ∧
    ((7 : ℝ)/25, (-24 : ℝ)/25) ≠ ((1 : ℝ), (0 : ℝ)) := by
  have hnm : noseMax ((0 : ℝ), (0 : ℝ)) [((0 : ℝ), (0 : ℝ)), (3/5, 4/5)] = (1, (3/5, 4/5)) := by
    norm_num [noseMax, noseStep, Vector.norm, List.foldl, Prod.mk_sub_mk, Real.sqrt_zero,
      Real.sqrt_one]
  refine ⟨by rw [hnm]; norm_num, ?_, by intro h; rw [Prod.mk.injEq] at h; norm_num at h⟩
  have h9 : Real.sqrt 9 = 3 := by
    rw [show (9 : ℝ) = 3 ^ 2 by norm_num]
    exact Real.sqrt_sq (by norm_num)
  have h25 : Real.sqrt 25 = 5 := by
    rw [show (25 : ℝ) = 5 ^ 2 by norm_num]
    exact Real.sqrt_sq (by norm_num)
  rw [normalizeData, hnm]
  norm_num [normalizeMap, h9, h25]

/-! Interpolation lemmas shared by the resampling claims. -/

theorem interpOn_pair (a b : ℝ × ℝ) (rest : List (ℝ × ℝ)) (x : ℝ)
    (hb : min a.1 b.1 ≤ x ∧ x ≤ max a.1 b.1) (hne : a.1 ≠ b.1) :
    interpOn (a :: b :: rest) x = some (x, a.2 + (x - a.1) * (b.2 - a.2) / (b.1 - a.1)) := by
  rw [interpOn, if_pos hb, if_neg hne]

theorem interpOn_skip (a b : ℝ × ℝ) (rest : List (ℝ × ℝ)) (x : ℝ)
    (hb : ¬ (min a.1 b.1 ≤ x ∧ x ≤ max a.1 b.1)) :
    interpOn (a :: b :: rest) x = interpOn (b :: rest) x := by
  rw [interpOn, if_neg hb]

theorem interpOn_fst :
    ∀ (l : List (ℝ × ℝ)) (x : ℝ) (pt : ℝ × ℝ), interpOn l x = some pt → pt.1 = x := by
  intro l
  induction l with
  | nil => intro x pt h; simp [interpOn] at h
  | cons p t ih =>
    intro x pt h
    cases t with
    | nil =>
      simp only [interpOn] at h
      split at h
      · cases h
        assumption
      · cases h
    | cons q rest =>
      simp only [interpOn] at h
      split at h
      · rename_i hbr
        split at h
        · rename_i heq
          cases h
          rw [heq, min_self, max_self] at hbr
          rw [heq]
          exact le_antisymm hbr.1 hbr.2
        · cases h
          rfl
      · exact ih x pt h

theorem Point_fst (d : List (ℝ × ℝ)) (x : ℝ) (pt : ℝ × ℝ) (h : Point d x = some pt) :
    pt.1 = |x| := by
  unfold Point at h
  split at h
  · rename_i hx
    rw [interpOn_fst d (-x) pt h, abs_of_neg hx]
  · rename_i hx
    rw [interpOn_fst d.reverse x pt h, abs_of_nonneg (not_lt.mp hx)]

/-- Lookup on the flat profile: every `x` in `[-1, 1]` maps to
`(|x|, 0)`. -/
theorem Point_flat (x : ℝ) (h1 : -1 ≤ x) (h2 : x ≤ 1) : Point flatData x = some (|x|, 0) := by
  rcases lt_or_ge x 0 with hx | hx
  · rw [Point, if_pos hx, flatData,
      interpOn_pair ((1 : ℝ), (0 : ℝ)) ((0 : ℝ), (0 : ℝ)) [(1, 0)] (-x)
        (by constructor <;> · norm_num; linarith) (by norm_num)]
    rw [abs_of_neg hx]
    norm_num
  · rw [Point, if_neg (not_lt.mpr hx)]
    have hrev : (flatData).reverse = [((1 : ℝ), (0 : ℝ)), (0, 0), (1, 0)] := by
      rw [flatData]
      rfl
    rw [hrev,
      interpOn_pair ((1 : ℝ), (0 : ℝ)) ((0 : ℝ), (0 : ℝ)) [(1, 0)] x
        (by constructor <;> · norm_num; linarith) (by norm_num)]
    rw [abs_of_nonneg hx]
    norm_num

/-! Claim C6. -/

theorem sin_pi_t_nonneg (t : ℝ) (h0 : 0 ≤ t) (h1 : t ≤ 1) : 0 ≤ Real.sin (π * t) :=
  Real.sin_nonneg_of_nonneg_of_le_pi (by positivity)
    (mul_le_of_le_one_right Real.pi_pos.le h1)

theorem abs_xtemp (t : ℝ) (h0 : 0 ≤ t) (h1 : t ≤ 1) :
    |Profile2D.pycmp t (1/2) * (1 - Real.sin (π * t))| = 1 - Real.sin (π * t) := by
  have hs1 : Real.sin (π * t) ≤ 1 := Real.sin_le_one _
  unfold Profile2D.pycmp
  split_ifs with hlt heq
  · rw [abs_mul, abs_neg, abs_one, one_mul, abs_of_nonneg (by linarith)]
  · subst heq
    rw [zero_mul, abs_zero, show π * (1/2 : ℝ) = π / 2 by ring, Real.sin_pi_div_two]
    norm_num
  · rw [abs_mul, abs_one, one_mul, abs_of_nonneg (by linarith)]

theorem xtemp_mem (t : ℝ) (h0 : 0 ≤ t) (h1 : t ≤ 1) :
    -1 ≤ Profile2D.pycmp t (1/2) * (1 - Real.sin (π * t)) ∧
      Profile2D.pycmp t (1/2) * (1 - Real.sin (π * t)) ≤ 1 := by
  have habs : |Profile2D.pycmp t (1/2) * (1 - Real.sin (π * t))| ≤ 1 := by
    rw [abs_xtemp t h0 h1]
    have := sin_pi_t_nonneg t h0 h1
    linarith
  exact abs_le.mp habs

theorem xtemp_symm (t : ℝ) :
    Profile2D.pycmp (1 - t) (1/2) * (1 - Real.sin (π * (1 - t))) =
      -(Profile2D.pycmp t (1/2) * (1 - Real.sin (π * t))) := by
  have hs : Real.sin (π * (1 - t)) = Real.sin (π * t) := by
    rw [show π * (1 - t) = π - π * t by ring, Real.sin_pi_sub]
  rw [hs]
  have hvneg : ∀ u : ℝ, u < 1/2 → Profile2D.pycmp u (1/2) = -1 := fun u hu => by
    rw [Profile2D.pycmp, if_pos hu]
  have hvzero : Profile2D.pycmp (1/2) (1/2) = 0 := by
    rw [Profile2D.pycmp, if_neg (lt_irrefl _), if_pos rfl]
  have hvpos : ∀ u : ℝ, 1/2 < u → Profile2D.pycmp u (1/2) = 1 := fun u hu => by
    rw [Profile2D.pycmp, if_neg (not_lt.mpr hu.le), if_neg (Ne.symm (ne_of_lt hu))]
  rcases lt_trichotomy t (1/2) with ht | ht | ht
  · rw [hvneg t ht, hvpos (1 - t) (by linarith)]
    ring
  · subst ht
    rw [show (1 : ℝ) - 1/2 = 1/2 by norm_num, hvzero]
    ring
  · rw [hvpos t ht, hvneg (1 - t) (by linarith)]
    ring

theorem cosineDist_length (n : ℕ) : (Profile2D.cosineDist n).length = n - n % 2 + 1 := by
  unfold Profile2D.cosineDist
  rw [List.length_map, List.length_range]

theorem cosineDist_get (n j : ℕ) (hj : j < (Profile2D.cosineDist n).length) :
    (Profile2D.cosineDist n).get ⟨j, hj⟩ =
      Profile2D.pycmp ((j : ℝ) / ((n - n % 2 : ℕ) : ℝ)) (1/2) *
        (1 - Real.sin (π * ((j : ℝ) / ((n - n % 2 : ℕ) : ℝ)))) := by
  unfold Profile2D.cosineDist
  simp only [List.get_eq_getElem, List.getElem_map, List.getElem_range]

theorem cosineDist_mem_bounds (n : ℕ) (x : ℝ) (hx : x ∈ Profile2D.cosineDist n) :
    -1 ≤ x ∧ x ≤ 1 := by
  unfold Profile2D.cosineDist at hx
  obtain ⟨j, hj, rfl⟩ := List.mem_map.mp hx
  have hj2 : j ≤ n - n % 2 := by
    have := List.mem_range.mp hj
    omega
  rcases Nat.eq_zero_or_pos (n - n % 2) with h0 | hpos
  · have hz : ((n - n % 2 : ℕ) : ℝ) = 0 := by exact_mod_cast h0
    refine xtemp_mem _ ?_ ?_
    · rw [hz, div_zero]
    · rw [hz, div_zero]
      norm_num
  · have hc : (0 : ℝ) < ((n - n % 2 : ℕ) : ℝ) := by exact_mod_cast hpos
    apply xtemp_mem
    · positivity
    · rw [div_le_one hc]
      exact_mod_cast hj2

theorem points_flat_cosineDist (n : ℕ) :
    mapOpt (Point flatData) (Profile2D.cosineDist n) =
      some ((Profile2D.cosineDist n).map fun x => (|x|, 0)) := by
  apply mapOpt_of_forall
  intro x hx
  obtain ⟨hl, hr⟩ := cosineDist_mem_bounds n x hx
  exact Point_flat x hl hr

/-- Data produced by `Numpoints = 20` on the flat profile. -/
def ys20 : List (ℝ × ℝ) :=
  (Profile2D.cosineDist 20).map fun x => (|x|, 0)

theorem ys20_length : ys20.length = 21 := by
  unfold ys20
  rw [List.length_map, cosineDist_length]

theorem ys20_fst (j : ℕ) (hj : j < ys20.length) :
    (ys20[j]).1 = 1 - Real.sin (π * ((j : ℝ) / 20)) := by
  have hj21 : j < 21 := by rwa [ys20_length] at hj
  have hj2 : j < (Profile2D.cosineDist 20).length := by
    rw [cosineDist_length]
    omega
  have hget := cosineDist_get 20 j hj2
  rw [List.get_eq_getElem] at hget
  show ((Profile2D.cosineDist 20).map fun x => ((|x|, 0) : ℝ × ℝ))[j].1 =
    1 - Real.sin (π * ((j : ℝ) / 20))
  rw [List.getElem_map]
  show |(Profile2D.cosineDist 20)[j]| = 1 - Real.sin (π * ((j : ℝ) / 20))
  rw [hget]
  rw [show ((20 - 20 % 2 : ℕ) : ℝ) = 20 by norm_num]
  have hb1 : (0 : ℝ) ≤ (j : ℝ) / 20 := by positivity
  have hb2 : (j : ℝ) / 20 ≤ 1 := by
    rw [div_le_one (by norm_num)]
    exact_mod_cast Nat.le_of_lt_succ hj21
  exact abs_xtemp _ hb1 hb2

theorem noseScan_ys20 : noseScan ys20 = some 10 := by
  unfold noseScan
  have h11 : 10 + 1 < ys20.length := by rw [ys20_length]; omega
  apply noseScanAux_reaches 10 0 10 (by omega) h11
  · rw [ys20_fst 11 h11, ys20_fst 10 (by rw [ys20_length]; omega)]
    rw [show π * (((10 : ℕ) : ℝ) / 20) = π / 2 by push_cast; ring, Real.sin_pi_div_two]
    have hs := Real.sin_le_one (π * (((11 : ℕ) : ℝ) / 20))
    intro hcon
    push_cast at hcon hs
    linarith
  · intro j _ hj10 hjb
    have hjlen : j < ys20.length := by omega
    rw [ys20_fst (j + 1) hjb, ys20_fst j hjlen]
    have hmono : Real.sin (π * ((j : ℝ) / 20)) < Real.sin (π * (((j + 1 : ℕ) : ℝ) / 20)) := by
      apply Real.sin_lt_sin_of_lt_of_le_pi_div_two
      · have : (0 : ℝ) ≤ π * ((j : ℝ) / 20) := by positivity
        have hp2 : (0 : ℝ) ≤ π / 2 := by positivity
        linarith
      · rw [show π / 2 = π * (1 / 2 : ℝ) by ring]
        apply mul_le_mul_of_nonneg_left _ Real.pi_pos.le
        have : ((j + 1 : ℕ) : ℝ) ≤ 10 := by exact_mod_cast Nat.succ_le_of_lt hj10
        linarith
      · apply mul_lt_mul_of_pos_left _ Real.pi_pos
        have : ((j : ℝ)) < ((j + 1 : ℕ) : ℝ) := by push_cast; linarith
        linarith
    linarith

theorem setLen20_eval : flatProfile.SetLen 20 = some ⟨"Profile", ys20, 10, ⟨flatData, 1⟩⟩ := by
  unfold Profile2D.SetLen Profile2D.SetXValues
  have hp : flatProfile.rootprof.Points (Profile2D.cosineDist 20) = some ys20 := by
    unfold BasicProfile2D.Points
    exact points_flat_cosineDist 20
  rw [hp]
  dsimp only
  unfold Profile2D.SetProfile
  rw [noseScan_ys20]
  rfl

/-- Counterexample to the point-count clause of C6: `Numpoints = 20` on a
profile produces 21 points (`range(i + 1)` samples `i + 1` values), not 20
and not 19. -/
theorem numpoints_after_setLen20 :
    (flatProfile.SetLen 20).map Profile2D.numpoints = some 21 ∧
    (21 : ℕ) ≠ 20 ∧ (21 : ℕ) ≠ 19 := by
  refine ⟨?_, by norm_num, by norm_num⟩
  rw [setLen20_eval, Option.map_some']
  show some ys20.length = some 21
  rw [ys20_length]

/-- Amended C6: `Numpoints = n` rounds `n` down to the even `i = n - n % 2`
and delegates the distribution `cmp(t, 0.5) * (1 - sin (pi t))` sampled at
`t = j / i` for `j = 0, ..., i` to the `XValues` setter; the resulting
curve has `i + 1` points (21 for `n = 20`, not 20 or 19), and the
distribution is antisymmetric about the nose. -/
theorem setLen_samples (s : Profile2D) (n : ℕ) (hn : 2 ≤ n) (s2 : Profile2D)
    (hset : s.SetLen n = some s2) :
    s2.numpoints = n - n % 2 + 1 ∧
    s.SetLen n = s.SetXValues (Profile2D.cosineDist n) ∧
    (∀ j (hj : j < (Profile2D.cosineDist n).length),
      (Profile2D.cosineDist n).get ⟨j, hj⟩ =
        Profile2D.pycmp ((j : ℝ) / ((n - n % 2 : ℕ) : ℝ)) (1/2) *
          (1 - Real.sin (π * ((j : ℝ) / ((n - n % 2 : ℕ) : ℝ))))) ∧
    (∀ j, (hj : j ≤ n - n % 2) →
      (Profile2D.cosineDist n).get ⟨n - n % 2 - j, by rw [cosineDist_length]; omega⟩ =
        -(Profile2D.cosineDist n).get ⟨j, by rw [cosineDist_length]; omega⟩) := by
  refine ⟨?_, rfl, cosineDist_get n, ?_⟩
  · unfold Profile2D.SetLen Profile2D.SetXValues BasicProfile2D.Points at hset
    cases hp : mapOpt (Point s.rootprof.data) (Profile2D.cosineDist n) with
    | none => rw [hp] at hset; cases hset
    | some pts =>
      rw [hp] at hset
      dsimp only at hset
      unfold Profile2D.SetProfile at hset
      cases hns : noseScan pts with
      | none => rw [hns] at hset; cases hset
      | some i =>
        rw [hns] at hset
        simp only [Option.map_some', Option.some.injEq] at hset
        subst hset
        show pts.length = n - n % 2 + 1
        rw [mapOpt_length hp, cosineDist_length]
  · intro j hj
    rw [cosineDist_get, cosineDist_get]
    have hpos : 0 < n - n % 2 := by omega
    have hc : (0 : ℝ) < ((n - n % 2 : ℕ) : ℝ) := by exact_mod_cast hpos
    have hcast : ((n - n % 2 - j : ℕ) : ℝ) = ((n - n % 2 : ℕ) : ℝ) - (j : ℝ) :=
      Nat.cast_sub hj
    rw [hcast]
    have hdiv : (((n - n % 2 : ℕ) : ℝ) - (j : ℝ)) / ((n - n % 2 : ℕ) : ℝ) =
        1 - (j : ℝ) / ((n - n % 2 : ℕ) : ℝ) := by
      field_simp
    rw [hdiv]
    exact xtemp_symm _

theorem cosineDist_two : Profile2D.cosineDist 2 = [-1, 0, 1] := by
  rw [Profile2D.cosineDist]
  rw [show List.range (2 - 2 % 2 + 1) = [0, 1, 2] from rfl]
  simp only [List.map_cons, List.map_nil]
  norm_num [Profile2D.pycmp, Real.sin_zero]

/-- Witness for the amended C6 at `n = 2` on the flat profile: the
resampled profile has `2 - 2 % 2 + 1 = 3` points. -/
theorem setLen_samples_witness :
    flatProfile.SetLen 2 = some flatProfile ∧ flatProfile.numpoints = 2 - 2 % 2 + 1 := by
  have hset : flatProfile.SetLen 2 = some flatProfile := by
    unfold Profile2D.SetLen Profile2D.SetXValues
    have hp : flatProfile.rootprof.Points (Profile2D.cosineDist 2) =
        some [(1, 0), (0, 0), (1, 0)] := by
      rw [cosineDist_two]
      norm_num [BasicProfile2D.Points, mapOpt, Point, interpOn, flatProfile, flatData]
    rw [hp]
    dsimp only
    unfold Profile2D.SetProfile
    have hn : noseScan [((1 : ℝ), (0 : ℝ)), (0, 0), (1, 0)] = some 1 := by
      rw [noseScan, noseScanAux]
      norm_num
      rw [noseScanAux]
      norm_num
    rw [hn]
    rfl
  exact ⟨hset, (setLen_samples flatProfile 2 (by norm_num) flatProfile hset).1⟩

/-! Claim C5. -/

theorem interpOn_scaleY (f : ℝ) :
    ∀ (l : List (ℝ × ℝ)) (x : ℝ),
      interpOn (l.map (scaleY f)) x = (interpOn l x).map (scaleY f) := by
  intro l
  induction l with
  | nil => intro x; rfl
  | cons p t ih =>
    intro x
    cases t with
    | nil =>
      show interpOn [scaleY f p] x = _
      simp only [interpOn, scaleY]
      split_ifs <;> rfl
    | cons q rest =>
      show interpOn (scaleY f p :: scaleY f q :: rest.map (scaleY f)) x = _
      simp only [interpOn, scaleY]
      split_ifs with h1 h2
      · rfl
      · simp only [Option.map_some', scaleY]
        refine congrArg some (Prod.ext rfl ?_)
        show f * p.2 + (x - p.1) * (f * q.2 - f * p.2) / (q.1 - p.1) =
          f * (p.2 + (x - p.1) * (q.2 - p.2) / (q.1 - p.1))
        ring
      · exact ih x

theorem Point_scaleY (f : ℝ) (d : List (ℝ × ℝ)) (x : ℝ) :
    Point (d.map (scaleY f)) x = (Point d x).map (scaleY f) := by
  unfold Point
  rw [← List.map_reverse]
  split_ifs <;> rw [interpOn_scaleY]

theorem noseScanAux_map_fst (g : (ℝ × ℝ) → (ℝ × ℝ)) (hg : ∀ p, (g p).1 = p.1)
    (l : List (ℝ × ℝ)) : ∀ i, noseScanAux (l.map g) i = noseScanAux l i := by
  have main : ∀ d i, l.length ≤ i + d → noseScanAux (l.map g) i = noseScanAux l i := by
    intro d
    induction d with
    | zero =>
      intro i hi
      rw [noseScanAux_oob (by simp only [List.length_map]; omega), noseScanAux_oob (by omega)]
    | succ d ih =>
      intro i hi
      by_cases h : i + 1 < l.length
      · have hmap : i + 1 < (l.map g).length := by simpa using h
        rw [noseScanAux, dif_pos hmap]
        conv_rhs => rw [noseScanAux]
        rw [dif_pos h]
        have he1 : (((l.map g)[i + 1]).1 : ℝ) = (l[i + 1]).1 := by
          rw [List.getElem_map]
          exact hg _
        have he0 : (((l.map g)[i]).1 : ℝ) = (l[i]).1 := by
          rw [List.getElem_map]
          exact hg _
        rw [he1, he0]
        split
        · exact ih (i + 1) (by omega)
        · rfl
      · rw [noseScanAux_oob (by simp only [List.length_map]; omega), noseScanAux_oob h]
  exact fun i => main (l.length) i (by omega)

theorem noseScan_scaleY (f : ℝ) (l : List (ℝ × ℝ)) :
    noseScan (l.map (scaleY f)) = noseScan l :=
  noseScanAux_map_fst (scaleY f) (fun _ => rfl) l 0

theorem XValues_scaleY (s : Profile2D) (f : ℝ) (name2 : String) (root2 : BasicProfile2D) :
    Profile2D.XValues ⟨name2, s.data.map (scaleY f), s.noseindex, root2⟩ =
      Profile2D.XValues s := by
  unfold Profile2D.XValues
  simp only [List.map_take, List.map_drop, List.map_map]
  rfl

theorem mapOpt_map_out {f1 f2 : α → Option β} {g : β → β}
    (h : ∀ x, f2 x = (f1 x).map g) :
    ∀ xs : List α, mapOpt f2 xs = (mapOpt f1 xs).map (List.map g) := by
  intro xs
  induction xs with
  | nil => rfl
  | cons a t ih =>
    simp only [mapOpt, h a, ih]
    cases f1 a <;> cases mapOpt f1 t <;> rfl

theorem pymax_scale (f : ℝ) (hf : 0 ≤ f) :
    ∀ l : List ℝ, Profile2D.pymax (l.map fun y => f * y) = (Profile2D.pymax l).map fun y => f * y := by
  intro l
  cases l with
  | nil => rfl
  | cons a t =>
    simp only [Profile2D.pymax, List.map_cons, Option.map_some']
    refine congrArg some ?_
    induction t generalizing a with
    | nil => rfl
    | cons b t2 ih =>
      simp only [List.map_cons, List.foldl_cons]
      rw [← mul_max_of_nonneg a b hf]
      exact ih (max a b)

theorem thicknessList_scaleY (s : Profile2D) (f : ℝ) (name2 : String) (root2 : BasicProfile2D) :
    Profile2D.thicknessList ⟨name2, s.data.map (scaleY f), s.noseindex, root2⟩ =
      (Profile2D.thicknessList s).map (List.map (scaleY f)) := by
  unfold Profile2D.thicknessList
  rw [show Profile2D.XValues ⟨name2, s.data.map (scaleY f), s.noseindex, root2⟩ =
    Profile2D.XValues s from XValues_scaleY s f name2 root2]
  apply mapOpt_map_out
  intro x
  show (match Point (s.data.map (scaleY f)) (-x), Point (s.data.map (scaleY f)) x with
    | some u, some l => some (x, u.2 - l.2)
    | _, _ => none) = _
  rw [Point_scaleY, Point_scaleY]
  cases Point s.data (-x) <;> cases Point s.data x <;> simp [scaleY, mul_sub]

/-- Amended C5: provided the y-rescaled data is a fixpoint of the
re-normalization performed inside `__init__` (true for moderate `t`),
assigning `Thickness = t` replaces the whole data (and the root profile)
with the y-rescaled copy, suffixes the name with the rendered percentage,
and reading the maximum thickness back gives exactly `t`; for large `t`
the constructor's re-normalization changes the geometry and the round
trip fails (see the counterexample). -/
theorem setThick_roundtrip (numStr : ℝ → String) (s : Profile2D) (t mt : ℝ)
    (hmt : s.maxThickness = some mt) (hmtpos : 0 < mt) (ht : 0 < t)
    (hws : noseScan s.data = some s.noseindex)
    (hnorm : normalizeData (s.data.map (scaleY (t / mt))) = s.data.map (scaleY (t / mt)))
    (hne : s.data ≠ []) :
    ∃ s2, Profile2D.SetThick numStr s t = some s2 ∧
      s2.Name = s.Name ++ "_" ++ numStr (t * 100) ++ "%" ∧
      s2.data = s.data.map (scaleY (t / mt)) ∧
      s2.rootprof = ⟨s.data.map (scaleY (t / mt)), s.noseindex⟩ ∧
      s2.maxThickness = some t := by
  obtain ⟨ts, hts, hpm⟩ : ∃ ts, s.thicknessList = some ts ∧
      Profile2D.pymax (ts.map Prod.snd) = some mt := by
    unfold Profile2D.maxThickness at hmt
    cases h : s.thicknessList with
    | none => rw [h] at hmt; cases hmt
    | some ts => rw [h] at hmt; exact ⟨ts, rfl, hmt⟩
  have hf0 : 0 ≤ t / mt := le_of_lt (div_pos ht hmtpos)
  have hscan2 : noseScan (s.data.map (scaleY (t / mt))) = some s.noseindex := by
    rw [noseScan_scaleY]
    exact hws
  have hne2 : s.data.map (scaleY (t / mt)) ≠ [] := by
    simpa using hne
  refine ⟨⟨s.Name ++ "_" ++ numStr (t * 100) ++ "%", s.data.map (scaleY (t / mt)), s.noseindex,
    ⟨s.data.map (scaleY (t / mt)), s.noseindex⟩⟩, ?_, rfl, rfl, rfl, ?_⟩
  · unfold Profile2D.SetThick
    rw [hmt]
    dsimp only
    unfold mkProfile2D
    rw [if_neg hne2, hscan2]
    dsimp only
    rw [show BasicProfile2D.Normalize ⟨s.data.map (scaleY (t / mt)), s.noseindex⟩ =
      ⟨s.data.map (scaleY (t / mt)), s.noseindex⟩ by
        unfold BasicProfile2D.Normalize
        rw [hnorm]]
    dsimp only
    rw [hscan2]
  · show Profile2D.maxThickness ⟨s.Name ++ "_" ++ numStr (t * 100) ++ "%",
      s.data.map (scaleY (t / mt)), s.noseindex,
      ⟨s.data.map (scaleY (t / mt)), s.noseindex⟩⟩ = some t
    unfold Profile2D.maxThickness
    rw [thicknessList_scaleY s (t / mt), hts]
    rw [Option.map_some']
    show Profile2D.pymax ((ts.map (scaleY (t / mt))).map Prod.snd) = some t
    rw [show (ts.map (scaleY (t / mt))).map Prod.snd =
      (ts.map Prod.snd).map (fun y => (t / mt) * y) by
        simp only [List.map_map]
        rfl]
    rw [pymax_scale (t / mt) hf0, hpm, Option.map_some']
    rw [div_mul_cancel₀ t (ne_of_gt hmtpos)]

/-- Concrete profile with maximum thickness 1/4 at x = 1/2, used by the
C5 witness and counterexample. -/
def thickData : List (ℝ × ℝ) :=
  [(1, 0), (1/2, 1/4), (0, 0), (1, 0)]

/-- Profile2D state over `thickData` (its own root). -/
def thickProfile : Profile2D :=
  ⟨"P", thickData, 2, ⟨thickData, 2⟩⟩

/-- Concrete stand-in for the abstracted Python float rendering
`str(newthick * 100)`. -/
def numStr0 : ℝ → String :=
  fun _ => "pct"

theorem thickData_noseScan : noseScan thickData = some 2 := by
  rw [noseScan, noseScanAux]
  norm_num [thickData]
  rw [noseScanAux]
  norm_num
  rw [noseScanAux]
  norm_num

theorem thickProfile_dedup :
    ((thickProfile.XValues.map fun x => |x|).dedup) = [1/2, 0, 1] := by
  have hxv : thickProfile.XValues = [-1, -(1/2), 0, 1] := by
    norm_num [Profile2D.XValues, thickProfile, thickData]
  rw [hxv]
  have habs : (([-1, -(1/2), 0, 1] : List ℝ).map fun x => |x|) = [1, 1/2, 0, 1] := by
    norm_num [abs_of_nonpos, abs_of_nonneg]
  rw [habs]
  rw [List.dedup_cons_of_mem (by norm_num), List.dedup_cons_of_not_mem (by norm_num),
    List.dedup_cons_of_not_mem (by norm_num), List.dedup_cons_of_not_mem (by norm_num),
    List.dedup_nil]

theorem thickProfile_thickness :
    thickProfile.thicknessList = some [(1/2, 1/4), (0, 0), (1, 0)] := by
  unfold Profile2D.thicknessList
  rw [thickProfile_dedup]
  norm_num [mapOpt, Point, interpOn, thickProfile, thickData]

theorem thickProfile_maxThickness : thickProfile.maxThickness = some (1/4) := by
  unfold Profile2D.maxThickness
  rw [thickProfile_thickness]
  norm_num [Profile2D.pymax]

theorem noseMax_scaled2 :
    noseMax ((1:ℝ), (0:ℝ)) [((1:ℝ), (0:ℝ)), (1/2, 1/2), (0, 0), (1, 0)] = (1, (0, 0)) := by
  have h2pos : (0:ℝ) < Real.sqrt 2 := Real.sqrt_pos.mpr (by norm_num)
  have h12 : (0:ℝ) < (Real.sqrt 2)⁻¹ := by positivity
  have h12b : (Real.sqrt 2)⁻¹ < 1 := by
    rw [inv_lt_one₀ h2pos]
    rw [show (1:ℝ) = Real.sqrt 1 by rw [Real.sqrt_one]]
    exact Real.sqrt_lt_sqrt (by norm_num) (by norm_num)
  norm_num [noseMax, noseStep, Vector.norm, Prod.mk_sub_mk, Real.sqrt_zero, Real.sqrt_one,
    h12, h12b]

theorem normalize_scaled2_fix :
    normalizeData [((1:ℝ), (0:ℝ)), (1/2, 1/2), (0, 0), (1, 0)] =
      [((1:ℝ), (0:ℝ)), (1/2, 1/2), (0, 0), (1, 0)] := by
  rw [normalizeData, noseMax_scaled2]
  norm_num [normalizeMap, Real.sqrt_one]

/-- Witness for the amended C5: setting `Thickness = 1/2` on the concrete
thick profile and reading the maximum thickness back gives exactly
`1/2`. -/
theorem setThick_roundtrip_witness :
    (Profile2D.SetThick numStr0 thickProfile (1/2)).bind Profile2D.maxThickness =
      some (1/2) := by
  have hnorm : normalizeData (thickProfile.data.map (scaleY ((1/2 : ℝ) / (1/4)))) =
      thickProfile.data.map (scaleY ((1/2 : ℝ) / (1/4))) := by
    rw [show ((1/2 : ℝ) / (1/4)) = 2 by norm_num]
    rw [show thickProfile.data.map (scaleY 2) = [((1:ℝ), (0:ℝ)), (1/2, 1/2), (0, 0), (1, 0)] by
      norm_num [thickProfile, thickData, scaleY]]
    exact normalize_scaled2_fix
  obtain ⟨s2, ha, _h1, _h2, _h3, hb⟩ :=
    setThick_roundtrip numStr0 thickProfile (1/2) (1/4) thickProfile_maxThickness
      (by norm_num) (by norm_num) thickData_noseScan hnorm (by simp [thickProfile, thickData])
  rw [ha, Option.some_bind]
  exact hb

theorem noseMax_scaled8 :
    noseMax ((1:ℝ), (0:ℝ)) [((1:ℝ), (0:ℝ)), (1/2, 2), (0, 0), (1, 0)] =
      (Real.sqrt (17/4), (1/2, 2)) := by
  have h4 : Real.sqrt 4 = 2 := by
    rw [show (4:ℝ) = 2^2 by norm_num]
    exact Real.sqrt_sq (by norm_num)
  have h17pos : (0:ℝ) < Real.sqrt 17 := Real.sqrt_pos.mpr (by norm_num)
  have ha : (0:ℝ) < Real.sqrt 17 / 2 := by positivity
  have hb : ¬ (Real.sqrt 17 / 2 < 1) := by
    rw [not_lt, le_div_iff₀ (by norm_num : (0:ℝ) < 2)]
    exact (Real.le_sqrt (by norm_num) (by norm_num)).mpr (by norm_num)
  have hc : ¬ (Real.sqrt 17 / 2 < 0) := not_lt.mpr (by positivity)
  norm_num [noseMax, noseStep, Vector.norm, Prod.mk_sub_mk, Real.sqrt_zero, Real.sqrt_one,
    h4, ha, hb, hc]

theorem normalize_scaled8 :
    normalizeData [((1:ℝ), (0:ℝ)), (1/2, 2), (0, 0), (1, 0)] =
      [((1:ℝ), (0:ℝ)), (0, 0), (15/17, -8/17), (1, 0)] := by
  have h17pos : (0:ℝ) < Real.sqrt 17 := Real.sqrt_pos.mpr (by norm_num)
  have h17 : Real.sqrt 17 ≠ 0 := ne_of_gt h17pos
  have hsq : Real.sqrt 17 * Real.sqrt 17 = 17 := Real.mul_self_sqrt (by norm_num)
  have hs417 : Real.sqrt (17/4) = Real.sqrt 17 / 2 := by
    rw [Real.sqrt_div (by norm_num) 4, show (4:ℝ) = 2^2 by norm_num,
      Real.sqrt_sq (by norm_num : (0:ℝ) ≤ 2)]
  have hsv : -((0 - 2) / (Real.sqrt 17 / 2)) = 4 / Real.sqrt 17 := by
    field_simp
    norm_num
  have hcv : Real.sqrt (1 - (4 / Real.sqrt 17)^2) = 1 / Real.sqrt 17 := by
    rw [show (1 - (4 / Real.sqrt 17)^2 : ℝ) = 1/17 by
      rw [div_pow, Real.sq_sqrt (by norm_num : (0:ℝ) ≤ 17)]
      norm_num]
    rw [show (1/17 : ℝ) = (1/Real.sqrt 17)^2 by
      rw [div_pow, one_pow, Real.sq_sqrt (by norm_num : (0:ℝ) ≤ 17)]]
    exact Real.sqrt_sq (by positivity)
  have hsq2 : Real.sqrt 17 ^ 2 = 17 := Real.sq_sqrt (by norm_num)
  have hsq3 : Real.sqrt 17 ^ 3 = 17 * Real.sqrt 17 := by
    rw [pow_succ, hsq2]
  rw [normalizeData, noseMax_scaled8]
  dsimp only
  rw [hs417, hsv, hcv]
  norm_num [normalizeMap]
  all_goals field_simp
  all_goals ring_nf
  all_goals simp only [hsq2, hsq3]
  all_goals ring_nf
  all_goals try norm_num

/-- Result state of `Thickness = 2` on the thick profile: the constructor
re-normalized the rescaled data (the nose moved to the old upper point),
so the geometry changed. -/
def thickState2 : Profile2D :=
  ⟨"P" ++ "_" ++ numStr0 (2 * 100) ++ "%",
    [(1, 0), (0, 0), (15/17, -8/17), (1, 0)], 1,
    ⟨[(1, 0), (0, 0), (15/17, -8/17), (1, 0)], 2⟩⟩

theorem setThick_2_eval :
    Profile2D.SetThick numStr0 thickProfile 2 = some thickState2 := by
  unfold Profile2D.SetThick
  rw [thickProfile_maxThickness]
  dsimp only
  rw [show thickProfile.data.map (scaleY (2 / (1/4))) =
    [((1:ℝ), (0:ℝ)), (1/2, 2), (0, 0), (1, 0)] by
      norm_num [thickProfile, thickData, scaleY]]
  unfold mkProfile2D
  rw [if_neg (by simp)]
  have hscan : noseScan [((1:ℝ), (0:ℝ)), (1/2, 2), (0, 0), (1, 0)] = some 2 := by
    rw [noseScan, noseScanAux]
    norm_num
    rw [noseScanAux]
    norm_num
    rw [noseScanAux]
    norm_num
  rw [hscan]
  dsimp only
  rw [show BasicProfile2D.Normalize ⟨[((1:ℝ), (0:ℝ)), (1/2, 2), (0, 0), (1, 0)], 2⟩ =
    ⟨[(1, 0), (0, 0), (15/17, -8/17), (1, 0)], 2⟩ by
      unfold BasicProfile2D.Normalize
      rw [normalize_scaled8]]
  dsimp only
  have hscan2 : noseScan [((1:ℝ), (0:ℝ)), (0, 0), (15/17, -8/17), (1, 0)] = some 1 := by
    rw [noseScan, noseScanAux]
    norm_num
    rw [noseScanAux]
    norm_num
  rw [hscan2]
  rfl

theorem thickState2_maxThickness : thickState2.maxThickness = some (8/17) := by
  have hdedup : ((thickState2.XValues.map fun x => |x|).dedup) = [0, 15/17, 1] := by
    have hxv : thickState2.XValues = [-1, 0, 15/17, 1] := by
      norm_num [Profile2D.XValues, thickState2]
    rw [hxv]
    have habs : (([-1, 0, 15/17, 1] : List ℝ).map fun x => |x|) = [1, 0, 15/17, 1] := by
      norm_num [abs_of_nonpos, abs_of_nonneg]
    rw [habs]
    rw [List.dedup_cons_of_mem (by norm_num), List.dedup_cons_of_not_mem (by norm_num),
      List.dedup_cons_of_not_mem (by norm_num), List.dedup_cons_of_not_mem (by norm_num),
      List.dedup_nil]
  have hth : thickState2.thicknessList = some [(0, 0), (15/17, 8/17), (1, 0)] := by
    unfold Profile2D.thicknessList
    rw [hdedup]
    norm_num [mapOpt, Point, interpOn, thickState2]
  unfold Profile2D.maxThickness
  rw [hth]
  norm_num [Profile2D.pymax]

/-- Counterexample to C5 as stated: the thick profile has positive maximum
thickness 1/4, but after `Thickness = 2` the maximum thickness reads back
as 8/17, not 2 — `_SetThick` re-enters `__init__`, whose re-normalization
rescales and rotates the large-thickness data. -/
theorem setThick_not_roundtrip :
    (0 : ℝ) < 1/4 ∧ thickProfile.maxThickness = some (1/4) ∧ (0 : ℝ) < 2 ∧
    (Profile2D.SetThick numStr0 thickProfile 2).bind Profile2D.maxThickness = some (8/17) ∧
    ((8 : ℝ)/17) ≠ 2 := by
  refine ⟨by norm_num, thickProfile_maxThickness, by norm_num, ?_, by norm_num⟩
  rw [setThick_2_eval, Option.some_bind]
  exact thickState2_maxThickness

/-! Claim C7. -/

theorem noseScanAux_congr_fst (l1 l2 : List (ℝ × ℝ)) (hlen : l1.length = l2.length)
    (hfst : ∀ k (hk1 : k < l1.length) (hk2 : k < l2.length),
      (l1.get ⟨k, hk1⟩).1 = (l2.get ⟨k, hk2⟩).1) :
    ∀ i, noseScanAux l1 i = noseScanAux l2 i := by
  have main : ∀ d i, l1.length ≤ i + d → noseScanAux l1 i = noseScanAux l2 i := by
    intro d
    induction d with
    | zero =>
      intro i hi
      rw [noseScanAux_oob (by omega), noseScanAux_oob (by omega)]
    | succ d ih =>
      intro i hi
      by_cases h : i + 1 < l1.length
      · have h2 : i + 1 < l2.length := by omega
        rw [noseScanAux, dif_pos h]
        conv_rhs => rw [noseScanAux]
        rw [dif_pos h2]
        rw [show (l1[i + 1]).1 = (l2[i + 1]).1 from hfst (i + 1) h h2,
          show (l1[i]).1 = (l2[i]).1 from hfst i (by omega) (by omega)]
        split
        · exact ih (i + 1) (by omega)
        · rfl
      · rw [noseScanAux_oob h, noseScanAux_oob (by omega)]
  exact fun i => main l1.length i (by omega)

theorem noseScan_congr_fst (l1 l2 : List (ℝ × ℝ)) (hlen : l1.length = l2.length)
    (hfst : ∀ k (hk1 : k < l1.length) (hk2 : k < l2.length),
      (l1.get ⟨k, hk1⟩).1 = (l2.get ⟨k, hk2⟩).1) :
    noseScan l1 = noseScan l2 :=
  noseScanAux_congr_fst l1 l2 hlen hfst 0

theorem noseScanAux_bound {l : List (ℝ × ℝ)} :
    ∀ {i0 i : ℕ}, noseScanAux l i0 = some i → i + 1 < l.length := by
  have main : ∀ d i0, l.length ≤ i0 + d → ∀ i, noseScanAux l i0 = some i → i + 1 < l.length := by
    intro d
    induction d with
    | zero =>
      intro i0 hi i h
      rw [noseScanAux_oob (by omega)] at h
      cases h
    | succ d ih =>
      intro i0 hi i h
      by_cases hb : i0 + 1 < l.length
      · rw [noseScanAux, dif_pos hb] at h
        split at h
        · exact ih (i0 + 1) (by omega) i h
        · cases h
          exact hb
      · rw [noseScanAux_oob hb] at h
        cases h
  exact fun {i0 i} h => main l.length i0 (by omega) i h

theorem XValues_length (s : Profile2D) (h : s.noseindex ≤ s.data.length) :
    s.XValues.length = s.data.length := by
  unfold Profile2D.XValues
  rw [List.length_append, List.length_map, List.length_map, List.length_take, List.length_drop]
  omega

theorem XValues_get (s : Profile2D) (hnb : s.noseindex ≤ s.data.length) (k : ℕ)
    (hk : k < s.data.length) (hk2 : k < s.XValues.length) :
    s.XValues.get ⟨k, hk2⟩ =
      if k < s.noseindex then -((s.data.get ⟨k, hk⟩).1) else (s.data.get ⟨k, hk⟩).1 := by
  have hk3 : k < ((s.data.take s.noseindex).map (fun p => -p.1) ++
      (s.data.drop s.noseindex).map Prod.fst).length := hk2
  show ((s.data.take s.noseindex).map (fun p => -p.1) ++
    (s.data.drop s.noseindex).map Prod.fst)[k] =
    if k < s.noseindex then -((s.data[k]).1) else (s.data[k]).1
  by_cases h : k < s.noseindex
  · rw [if_pos h]
    rw [List.getElem_append_left (by rw [List.length_map, List.length_take]; omega)]
    rw [List.getElem_map, List.getElem_take]
  · rw [if_neg h]
    rw [List.getElem_append_right (by rw [List.length_map, List.length_take]; omega)]
    rw [List.getElem_map, List.getElem_drop]
    simp only [List.length_map, List.length_take]
    simp only [show s.noseindex + (k - min s.noseindex s.data.length) = k from by omega]

/-- C7 (amended): with the lower-resolution operand `s` in a
normalization-stable state (its data is a fixpoint of `normalizeData`, as
`__init__` leaves it), `s + o` resamples `s`'s curve onto `o`'s signed
x-values and adds only the y-column of `o`: the result's points are
`(o.x_k, resampled.y_k + o.y_k)`.  (Correction: the resample source is the
fresh copy's root profile rebuilt from `s.data` by `__init__` — which
re-normalizes — not `s`'s own current curve; the two agree exactly when
`s.data` is normalization-stable.) -/
theorem add_resamples (s o : Profile2D) (pts : List (ℝ × ℝ))
    (hlen : s.numpoints ≤ o.numpoints)
    (hws : noseScan s.data = some s.noseindex)
    (hwso : noseScan o.data = some o.noseindex)
    (hnorm : normalizeData s.data = s.data)
    (hxvne : s.XValues ≠ o.XValues)
    (hpts : mapOpt (Point s.data) o.XValues = some pts)
    (hpos : ∀ p ∈ o.data, 0 ≤ p.1) :
    ∃ res, Profile2D.add s o = some res ∧
      res.data = List.zipWith (fun p q => (q.1, p.2 + q.2)) pts o.data := by
  have hws0 : noseScanAux s.data 0 = some s.noseindex := hws
  have hwso0 : noseScanAux o.data 0 = some o.noseindex := hwso
  have hbs : s.noseindex + 1 < s.data.length := noseScanAux_bound hws0
  have hbo : o.noseindex + 1 < o.data.length := noseScanAux_bound hwso0
  have hnes : s.data ≠ [] := by
    intro h
    rw [h] at hbs
    simp at hbs
  have hcopy : s.copy = some ⟨"Profile", s.data, s.noseindex, ⟨s.data, s.noseindex⟩⟩ := by
    unfold Profile2D.copy mkProfile2D
    rw [if_neg hnes, hws]
    dsimp only
    rw [show BasicProfile2D.Normalize ⟨s.data, s.noseindex⟩ =
        (⟨s.data, s.noseindex⟩ : BasicProfile2D) by
      unfold BasicProfile2D.Normalize
      dsimp only
      rw [hnorm]]
    dsimp only
    rw [hws]
  have hxvlen_o : o.XValues.length = o.data.length := XValues_length o (by omega)
  have hptslen : pts.length = o.XValues.length := mapOpt_length hpts
  have hptsfst : ∀ k (hk2 : k < pts.length) (hk : k < o.data.length),
      (pts.get ⟨k, hk2⟩).1 = (o.data.get ⟨k, hk⟩).1 := by
    intro k hk2 hk
    have hkxv : k < o.XValues.length := by omega
    have hpt := mapOpt_getElem hpts k hkxv hk2
    have h1 := Point_fst _ _ _ hpt
    rw [h1, XValues_get o (by omega) k hk hkxv]
    have hge : 0 ≤ (o.data.get ⟨k, hk⟩).1 := hpos _ (List.get_mem o.data k hk)
    by_cases hko : k < o.noseindex
    · rw [if_pos hko, abs_neg, abs_of_nonneg hge]
    · rw [if_neg hko, abs_of_nonneg hge]
  have hscanpts : noseScan pts = some o.noseindex := by
    rw [noseScan_congr_fst pts o.data (by omega) hptsfst]
    exact hwso
  have hzipfst : ∀ k
      (hk1 : k < (List.zipWith (fun p q : ℝ × ℝ => (p.1 + 0 * q.1, p.2 + 1 * q.2))
        pts o.data).length)
      (hk2 : k < o.data.length),
      ((List.zipWith (fun p q : ℝ × ℝ => (p.1 + 0 * q.1, p.2 + 1 * q.2))
        pts o.data).get ⟨k, hk1⟩).1 = (o.data.get ⟨k, hk2⟩).1 := by
    intro k hk1 hk2
    have hkp : k < pts.length := by
      rw [List.length_zipWith] at hk1
      omega
    have h := hptsfst k hkp hk2
    simp only [List.get_eq_getElem] at h
    simp only [List.get_eq_getElem, List.getElem_zipWith]
    simpa using h
  have hscanzip : noseScan (List.zipWith (fun p q : ℝ × ℝ => (p.1 + 0 * q.1, p.2 + 1 * q.2))
      pts o.data) = some o.noseindex := by
    rw [noseScan_congr_fst _ o.data (by rw [List.length_zipWith]; omega) hzipfst]
    exact hwso
  refine ⟨⟨"Profile",
    List.zipWith (fun p q : ℝ × ℝ => (p.1 + 0 * q.1, p.2 + 1 * q.2)) pts o.data,
    o.noseindex, ⟨s.data, s.noseindex⟩⟩, ?_, ?_⟩
  · unfold Profile2D.add
    simp only [if_neg (not_lt.mpr hlen)]
    rw [hcopy]
    dsimp only
    rw [if_neg (show ¬ (Profile2D.XValues
        ⟨"Profile", s.data, s.noseindex, ⟨s.data, s.noseindex⟩⟩ = o.XValues) from hxvne)]
    unfold Profile2D.SetXValues
    rw [show BasicProfile2D.Points (⟨s.data, s.noseindex⟩ : BasicProfile2D) o.XValues =
      some pts from hpts]
    dsimp only
    unfold Profile2D.SetProfile
    rw [hscanpts, Option.map_some']
    dsimp only
    rw [if_pos (show pts.length = o.data.length by omega)]
    rw [hscanzip, Option.map_some']
  · dsimp only
    apply List.ext_getElem
    · simp only [List.length_zipWith]
    · intro k hk1 hk2
      have hkp : k < pts.length := by
        rw [List.length_zipWith] at hk1
        omega
      have hko : k < o.data.length := by
        rw [List.length_zipWith] at hk1
        omega
      have h := hptsfst k hkp hko
      simp only [List.get_eq_getElem] at h
      simp only [List.getElem_zipWith]
      simp only [Prod.mk.injEq]
      constructor
      · rw [h]
        ring
      · ring

/-- Higher-resolution operand used by the C7 witness and counterexample:
five points, symmetric cusps of height `1/10` at `x = 1/2` on both
surfaces. -/
def oData : List (ℝ × ℝ) :=
  [(1, 0), (1/2, 1/10), (0, 0), (1/2, -1/10), (1, 0)]

/-- `Profile2D` state over `oData` (its own root profile). -/
def oProfile : Profile2D :=
  ⟨"O", oData, 2, ⟨oData, 2⟩⟩

theorem flatData_noseScan : noseScan [((1:ℝ), (0:ℝ)), (0, 0), (1, 0)] = some 1 := by
  rw [noseScan, noseScanAux]
  norm_num
  rw [noseScanAux]
  norm_num

theorem oData_noseScan : noseScan oData = some 2 := by
  rw [oData, noseScan, noseScanAux]
  norm_num
  rw [noseScanAux]
  norm_num
  rw [noseScanAux]
  norm_num

theorem noseMax_flat :
    noseMax ((1:ℝ), (0:ℝ)) [((1:ℝ), (0:ℝ)), (0, 0), (1, 0)] = (1, (0, 0)) := by
  norm_num [noseMax, noseStep, Vector.norm, Prod.mk_sub_mk, Real.sqrt_zero, Real.sqrt_one]

theorem normalize_flat :
    normalizeData [((1:ℝ), (0:ℝ)), (0, 0), (1, 0)] = [((1:ℝ), (0:ℝ)), (0, 0), (1, 0)] := by
  rw [normalizeData, noseMax_flat]
  norm_num [normalizeMap, Real.sqrt_one]

theorem flat_XValues : flatProfile.XValues = [-1, 0, 1] := by
  norm_num [Profile2D.XValues, flatProfile, flatData]

theorem oProfile_XValues : oProfile.XValues = [-1, -1/2, 0, 1/2, 1] := by
  norm_num [Profile2D.XValues, oProfile, oData]

theorem flat_pts :
    mapOpt (Point [((1:ℝ), (0:ℝ)), (0, 0), (1, 0)]) ([-1, -1/2, 0, 1/2, 1] : List ℝ) =
      some [(1, 0), (1/2, 0), (0, 0), (1/2, 0), (1, 0)] := by
  norm_num [mapOpt, Point, interpOn]

/-- Witness for the amended C7: adding the five-point `oProfile` to the
three-point flat profile resamples the flat curve at `oProfile`'s
x-values and adds `oProfile`'s y-column, giving back exactly `oData`. -/
theorem add_resamples_witness :
    (Profile2D.add flatProfile oProfile).map (fun r => r.data) =
      some [((1:ℝ), (0:ℝ)), (1/2, 1/10), (0, 0), (1/2, -1/10), (1, 0)] := by
  obtain ⟨res, ha, hb⟩ := add_resamples flatProfile oProfile
    [(1, 0), (1/2, 0), (0, 0), (1/2, 0), (1, 0)]
    (by norm_num [Profile2D.numpoints, flatProfile, oProfile, flatData, oData])
    flatData_noseScan
    oData_noseScan
    normalize_flat
    (by rw [flat_XValues, oProfile_XValues]; norm_num)
    (by rw [oProfile_XValues]; exact flat_pts)
    (by
      intro p hp
      simp only [oProfile, oData, List.mem_cons, List.not_mem_nil, or_false] at hp
      rcases hp with rfl | rfl | rfl | rfl | rfl <;> norm_num)
  rw [ha, Option.map_some', hb]
  norm_num [oProfile, oData, List.zipWith]

/-- Lower-resolution operand of the C7 counterexample: its current data is
NOT a fixpoint of the constructor's normalization (the first point sits at
height `3/4`), as obtained by assigning raw points through the `Profile`
property setter. -/
def pcData : List (ℝ × ℝ) :=
  [(1, 3/4), (0, 0), (1, 0)]

/-- `Profile2D` state over `pcData`. -/
def pcProfile : Profile2D :=
  ⟨"P", pcData, 1, ⟨pcData, 1⟩⟩

/-- What `__init__` turns `pcData` into: the re-normalized curve. -/
def ncData : List (ℝ × ℝ) :=
  [(1, 0), (0, 0), (16/25, -12/25)]

theorem pc_noseScan : noseScan [((1:ℝ), (3/4:ℝ)), (0, 0), (1, 0)] = some 1 := by
  rw [noseScan, noseScanAux]
  norm_num
  rw [noseScanAux]
  norm_num

theorem noseMax_pc :
    noseMax ((1:ℝ), (3/4:ℝ)) [((1:ℝ), (3/4:ℝ)), (0, 0), (1, 0)] = (5/4, (0, 0)) := by
  have h2516 : Real.sqrt (25/16) = 5/4 := by
    rw [show (25/16 : ℝ) = (5/4)^2 by norm_num]
    exact Real.sqrt_sq (by norm_num)
  have h916 : Real.sqrt (9/16) = 3/4 := by
    rw [show (9/16 : ℝ) = (3/4)^2 by norm_num]
    exact Real.sqrt_sq (by norm_num)
  have h25 : Real.sqrt 25 = 5 := by
    rw [show (25 : ℝ) = 5^2 by norm_num]
    exact Real.sqrt_sq (by norm_num)
  have h16 : Real.sqrt 16 = 4 := by
    rw [show (16 : ℝ) = 4^2 by norm_num]
    exact Real.sqrt_sq (by norm_num)
  have h9 : Real.sqrt 9 = 3 := by
    rw [show (9 : ℝ) = 3^2 by norm_num]
    exact Real.sqrt_sq (by norm_num)
  norm_num [noseMax, noseStep, Vector.norm, Prod.mk_sub_mk, Real.sqrt_zero,
    h2516, h916, h25, h16, h9]

theorem normalize_pc :
    normalizeData [((1:ℝ), (3/4:ℝ)), (0, 0), (1, 0)] = [(1, 0), (0, 0), (16/25, -12/25)] := by
  have h1625 : Real.sqrt (16/25) = 4/5 := by
    rw [show (16/25 : ℝ) = (4/5)^2 by norm_num]
    exact Real.sqrt_sq (by norm_num)
  have h16 : Real.sqrt 16 = 4 := by
    rw [show (16 : ℝ) = 4^2 by norm_num]
    exact Real.sqrt_sq (by norm_num)
  have h25 : Real.sqrt 25 = 5 := by
    rw [show (25 : ℝ) = 5^2 by norm_num]
    exact Real.sqrt_sq (by norm_num)
  rw [normalizeData, noseMax_pc]
  norm_num [normalizeMap, h1625, h16, h25]

theorem nc_noseScan : noseScan ncData = some 1 := by
  rw [ncData, noseScan, noseScanAux]
  norm_num
  rw [noseScanAux]
  norm_num

theorem pc_copy : pcProfile.copy = some ⟨"Profile", ncData, 1, ⟨ncData, 1⟩⟩ := by
  unfold Profile2D.copy mkProfile2D
  rw [if_neg (by simp [pcProfile, pcData])]
  rw [show noseScan pcProfile.data = some 1 from pc_noseScan]
  dsimp only
  rw [show BasicProfile2D.Normalize ⟨pcProfile.data, 1⟩ = (⟨ncData, 1⟩ : BasicProfile2D) by
    unfold BasicProfile2D.Normalize
    dsimp only
    rw [show pcProfile.data = [((1:ℝ), (3/4:ℝ)), (0, 0), (1, 0)] from rfl, normalize_pc]
    rfl]
  dsimp only
  rw [show noseScan (⟨ncData, 1⟩ : BasicProfile2D).data = some 1 from nc_noseScan]

theorem pcpts :
    mapOpt (Point ncData) ([-1, -1/2, 0, 1/2, 1] : List ℝ) =
      some [(1, 0), (1/2, 0), (0, 0), (1/2, -3/8), (1, 0)] := by
  norm_num [mapOpt, Point, interpOn, ncData]

theorem pcpts_noseScan :
    noseScan [((1:ℝ), (0:ℝ)), (1/2, 0), (0, 0), (1/2, -3/8), (1, 0)] = some 2 := by
  rw [noseScan, noseScanAux]
  norm_num
  rw [noseScanAux]
  norm_num
  rw [noseScanAux]
  norm_num

theorem zip_pc :
    List.zipWith (fun p q : ℝ × ℝ => (p.1 + 0 * q.1, p.2 + 1 * q.2))
      [((1:ℝ), (0:ℝ)), (1/2, 0), (0, 0), (1/2, -3/8), (1, 0)] oData =
      [(1, 0), (1/2, 1/10), (0, 0), (1/2, -19/40), (1, 0)] := by
  norm_num [oData, List.zipWith]

theorem zip_pc_noseScan :
    noseScan [((1:ℝ), (0:ℝ)), (1/2, 1/10), (0, 0), (1/2, -19/40), (1, 0)] = some 2 := by
  rw [noseScan, noseScanAux]
  norm_num
  rw [noseScanAux]
  norm_num
  rw [noseScanAux]
  norm_num

theorem add_pc_eval :
    Profile2D.add pcProfile oProfile =
      some ⟨"Profile", [(1, 0), (1/2, 1/10), (0, 0), (1/2, -19/40), (1, 0)], 2,
        ⟨ncData, 1⟩⟩ := by
  unfold Profile2D.add
  simp only [if_neg (show ¬ (oProfile.numpoints < pcProfile.numpoints) by
    norm_num [Profile2D.numpoints, pcProfile, oProfile, pcData, oData])]
  rw [pc_copy]
  dsimp only
  rw [if_neg (show ¬ (Profile2D.XValues ⟨"Profile", ncData, 1, ⟨ncData, 1⟩⟩ =
      oProfile.XValues) by
    rw [oProfile_XValues]
    norm_num [Profile2D.XValues, ncData])]
  unfold Profile2D.SetXValues
  rw [show BasicProfile2D.Points (⟨ncData, 1⟩ : BasicProfile2D) oProfile.XValues =
      some [((1:ℝ), (0:ℝ)), (1/2, 0), (0, 0), (1/2, -3/8), (1, 0)] by
    unfold BasicProfile2D.Points
    rw [oProfile_XValues]
    exact pcpts]
  dsimp only
  unfold Profile2D.SetProfile
  rw [pcpts_noseScan, Option.map_some']
  dsimp only
  rw [if_pos (by norm_num [oProfile, oData])]
  rw [show oProfile.data = oData from rfl, zip_pc, zip_pc_noseScan, Option.map_some']

/-- Counterexample to C7 as stated: adding the five-point `oProfile` to
the three-point `pcProfile` gives, at the shared lower-surface abscissa
`x = 1/2`, the y-value `-19/40`, while the sum of the two operands' own
y-values there is `0 + (-1/10)`: the resample source is a fresh copy
whose `__init__` re-normalized `pcProfile`'s (non-normalization-stable)
data, not `pcProfile`'s current curve. -/
theorem add_not_operand_sum :
    (Profile2D.add pcProfile oProfile).map (fun r => r.data) =
      some [((1:ℝ), (0:ℝ)), (1/2, 1/10), (0, 0), (1/2, -19/40), (1, 0)] ∧
    Point pcProfile.data (1/2) = some (1/2, 0) ∧
    Point oProfile.data (1/2) = some (1/2, -1/10) ∧
    ((-19 : ℝ)/40) ≠ 0 + (-1/10) := by
  refine ⟨?_, ?_, ?_, by norm_num⟩
  · rw [add_pc_eval]
    rfl
  · norm_num [Point, interpOn, pcProfile, pcData]
  · norm_num [Point, interpOn, oProfile, oData]

end OpenGlider
